import Mathlib

/-!
# ClusterLink policy engine: dispatcher and event gateway

A shallow embedding of

* `pkg/controlplane/eventManager/events.go` (event vocabulary),
* `pkg/policyEngine/PolicyDispatcher.go` (the policy orchestrator),
* `pkg/controlplane/eventManager/eventHandler.go` (the event gateway),

followed by theorems about the handlers.

Conventions of the embedding:

* Go `int`-backed enumerations (`Direction`, `Action`) are `Int`, so that a
  decoded request may carry a value outside the named constants.
* A handler receives the outcome of `json.NewDecoder(r.Body).Decode`, an
  `Except String attr` (decode error text, or the decoded attributes), and
  returns the HTTP reply together with the handler state after the call.
* The body of a reply is the value the handler hands to the JSON encoder.
* Log lines are not part of the state and are left out.
* `AccessControl` and `LoadBalancer` are types of the `policyEngine` package
  whose implementation is not part of the sources at hand; they are taken as
  records of their methods.
-/

namespace eventManager

/-- Go `type Direction int`. -/
abbrev Direction := Int

/-- Constant `Incoming Direction = iota`. -/
def Incoming : Direction := 0

/-- Constant `Outgoing`. -/
def Outgoing : Direction := 1

/-- Go `type Action int`. -/
abbrev Action := Int

/-- Constant `Allow Action = iota`. -/
def Allow : Action := 0

/-- Constant `Deny`. -/
def Deny : Action := 1

/-- Constant `AllowAll`. -/
def AllowAll : Action := 2

/-- Constant `AllowPartial`. -/
def AllowPartial : Action := 3

/-- Constant `Wildcard = "*"`. -/
def Wildcard : String := "*"

/-- Event name `NewConnectionRequest`. -/
def NewConnectionRequest : String := "NewConnectionRequest"

/-- Event name `ConnectionStatus`. -/
def ConnectionStatus : String := "ConnectionStatus"

/-- Event name `AddPeerRequest`. -/
def AddPeerRequest : String := "AddPeerRequest"

/-- Event name `NewRemoteService`. -/
def NewRemoteService : String := "NewRemoteService"

/-- Event name `ExposeRequest`. -/
def ExposeRequest : String := "ExposeRequest"

/-- Event name `RemovePeerRequest`. -/
def RemovePeerRequest : String := "RemovePeerRequest"

/-- Event name `RemoveRemoteService`. -/
def RemoveRemoteService : String := "RemoveRemoteService"

/-- Go `type ConnectionRequestAttr struct`. -/
structure ConnectionRequestAttr where
  SrcService : String
  DstService : String
  Direction : Direction
  OtherMbg : String
  deriving DecidableEq, Repr

/-- Go `type ConnectionRequestResp struct`. -/
structure ConnectionRequestResp where
  Action : Action
  TargetMbg : String
  BitRate : Int
  deriving DecidableEq, Repr

/-- Go `type ConnectionStatusAttr struct`; the two time stamps are kept as
integers, the connection state as the `int` it is. -/
structure ConnectionStatusAttr where
  ConnectionId : String
  SrcService : String
  DstService : String
  IncomingBytes : Int
  OutgoingBytes : Int
  DestinationPeer : String
  StartTstamp : Int
  LastTstamp : Int
  Direction : Direction
  State : Int
  deriving DecidableEq, Repr

/-- Go `type NewRemoteServiceAttr struct`. -/
structure NewRemoteServiceAttr where
  Service : String
  Mbg : String
  deriving DecidableEq, Repr

/-- Go `type RemoveRemoteServiceAttr struct`. -/
structure RemoveRemoteServiceAttr where
  Service : String
  Mbg : String
  deriving DecidableEq, Repr

/-- Go `type NewRemoteServiceResp struct`. -/
structure NewRemoteServiceResp where
  Action : Action
  deriving DecidableEq, Repr

/-- Go `type ExposeRequestAttr struct`. -/
structure ExposeRequestAttr where
  Service : String
  deriving DecidableEq, Repr

/-- Go `type ExposeRequestResp struct`. -/
structure ExposeRequestResp where
  Action : Action
  TargetMbgs : List String
  deriving DecidableEq, Repr

/-- Go `type AddPeerAttr struct`. -/
structure AddPeerAttr where
  PeerMbg : String
  deriving DecidableEq, Repr

/-- Go `type AddPeerResp struct`. -/
structure AddPeerResp where
  Action : Action
  deriving DecidableEq, Repr

/-- Go `type RemovePeerAttr struct`. -/
structure RemovePeerAttr where
  PeerMbg : String
  deriving DecidableEq, Repr

end eventManager

namespace policyEngine

open eventManager

/-- The `AccessControl` agent, as the record of the methods the dispatcher
calls on it. The implementation is not among the sources; each method is a
parameter. The methods are taken to read the rule table without changing it,
and `LookupTarget` to read the peer list it is handed without changing it. -/
structure AccessControl where
  /-- Field `DefaultRule`, set once by `init`. -/
  DefaultRule : Action
  /-- Method `Lookup(src, dst, mbg, defaultAction) (Action, int)`. -/
  Lookup : String → String → String → Action → Action × Int
  /-- Method `RulesLookup(src, dst, mbg)`, three results of which the
  dispatcher keeps the second. -/
  RulesLookup : String → String → String → Int × Action × Int
  /-- Method `LookupTarget(service, peers) (Action, []string)`. -/
  LookupTarget : String → List String → Action × List String

/-- The `LoadBalancer` agent, as its private state `state : σ` and the record
of the methods the dispatcher calls on it. The implementation is not among the
sources; each method is a parameter.

* `GetTargetMbgs` has Go type `([]string, error)`; the dispatcher drops the
  list when the error is set, so the result is `none` for an error.
* `LookupWith` has Go type `(string, error)`; the result keeps both, the
  `Bool` being `true` for a non-nil error, and the state after the call
  (a selection policy may advance a cursor). -/
structure LoadBalancer (σ : Type) where
  state : σ
  GetTargetMbgs : σ → String → Option (List String)
  LookupWith : σ → String → String → List String → (String × Bool) × σ
  AddToServiceMap : σ → String → String → σ
  RemoveMbgFromServiceMap : σ → String → σ
  RemoveDestService : σ → String → String → σ

/-- Go `type MbgState struct`; the pointer to the shared slice is the slice. -/
structure MbgState where
  mbgPeers : List String
  deriving DecidableEq, Repr

/-- Go `type PolicyHandler struct`. A Go map lookup of a missing key gives the
nil slice, so `SubscriptionMap` is a total function. -/
structure PolicyHandler (σ : Type) where
  SubscriptionMap : String → List String
  accessControl : AccessControl
  loadBalancer : LoadBalancer σ
  mbgState : MbgState

/-- What a handler wrote to the `http.ResponseWriter`: the status code, the
text of `http.Error` if that was called, and the value handed to the JSON
encoder if one was. -/
structure HttpReply (β : Type) where
  status : Nat
  errorText : Option String
  body : Option β

/-- Status `http.StatusOK`. -/
def StatusOK : Nat := 200

/-- Status `http.StatusBadRequest`. -/
def StatusBadRequest : Nat := 400

/-- Reply of `http.Error(w, err.Error(), http.StatusBadRequest)`. -/
def HttpReply.badRequest {β : Type} (msg : String) : HttpReply β :=
  { status := StatusBadRequest, errorText := some msg, body := none }

/-- Reply of `WriteHeader(http.StatusOK)` followed by `Encode(b)`. -/
def HttpReply.okJson {β : Type} (b : β) : HttpReply β :=
  { status := StatusOK, errorText := none, body := some b }

/-- Reply of `WriteHeader(http.StatusOK)` with no body. -/
def HttpReply.okEmpty {β : Type} : HttpReply β :=
  { status := StatusOK, errorText := none, body := none }

/-- Function `exists(slice, entry) (int, bool)` of the source (the name is a
reserved word here): index of the first occurrence, or `-1`. -/
def sliceExists : List String → String → Int × Bool
  | [], _ => (-1, false)
  | e :: rest, entry =>
    if e = entry then (0, true)
    else
      let r := sliceExists rest entry
      if r.2 then (r.1 + 1, true) else (-1, false)

/-- Method `addPeer`, on the peer slice. -/
def addPeer (mbgPeers : List String) (peerMbg : String) : List String :=
  let r := sliceExists mbgPeers peerMbg
  if r.2 then mbgPeers else mbgPeers ++ [peerMbg]

/-- Method `removePeer`, on the peer slice:
`append(peers[:index], peers[index+1:]...)`. -/
def removePeer (mbgPeers : List String) (peerMbg : String) : List String :=
  let r := sliceExists mbgPeers peerMbg
  if !r.2 then mbgPeers
  else mbgPeers.take r.1.toNat ++ mbgPeers.drop (r.1.toNat + 1)

/-- The local variables of `newConnectionRequest` that the agent loop
updates, with the load balancer state. -/
structure ConnDecision (σ : Type) where
  action : Action
  targetMbg : String
  bitrate : Int
  lbState : σ

/-- One iteration of the agent loop of `newConnectionRequest`: the `switch`
on the agent name. A `break` inside a `case` leaves the `switch`, not the
loop. -/
def connAgent {σ : Type} (pH : PolicyHandler σ) (requestAttr : ConnectionRequestAttr)
    (d : ConnDecision σ) (agent : String) : ConnDecision σ :=
  if agent = "AccessControl" then
    if requestAttr.Direction = Incoming then
      let r := pH.accessControl.Lookup requestAttr.SrcService requestAttr.DstService
        requestAttr.OtherMbg Allow
      { d with action := r.1, bitrate := r.2 }
    else d
  else if agent = "LoadBalancer" then
    if requestAttr.Direction = Outgoing then
      match pH.loadBalancer.GetTargetMbgs d.lbState requestAttr.DstService with
      | none => { d with action := Deny }
      | some mbgList =>
        let mbgValidList := mbgList.filter (fun mbg =>
          decide ((pH.accessControl.Lookup requestAttr.SrcService requestAttr.DstService mbg
            pH.accessControl.DefaultRule).1 ≠ Deny))
        let r := pH.loadBalancer.LookupWith d.lbState requestAttr.SrcService
          requestAttr.DstService mbgValidList
        { action := if r.1.2 then Deny else Allow
          targetMbg := r.1.1
          bitrate := d.bitrate
          lbState := r.2 }
    else d
  else d

/-- The agent loop of `newConnectionRequest` over a subscription list,
starting from the zero values of `action`, `targetMbg` and `bitrate`. -/
def connDecide {σ : Type} (pH : PolicyHandler σ) (requestAttr : ConnectionRequestAttr)
    (agents : List String) : ConnDecision σ :=
  agents.foldl (connAgent pH requestAttr)
    { action := 0, targetMbg := "", bitrate := 0, lbState := pH.loadBalancer.state }

/-- Handler `newConnectionRequest`. An error of the final `Encode` is logged
and the handler returns, which changes nothing. -/
def newConnectionRequest {σ : Type} (pH : PolicyHandler σ)
    (body : Except String ConnectionRequestAttr) :
    HttpReply ConnectionRequestResp × PolicyHandler σ :=
  match body with
  | .error err => (HttpReply.badRequest err, pH)
  | .ok requestAttr =>
    let d := connDecide pH requestAttr (pH.SubscriptionMap NewConnectionRequest)
    (HttpReply.okJson { Action := d.action, TargetMbg := d.targetMbg, BitRate := d.bitrate },
      { pH with loadBalancer := { pH.loadBalancer with state := d.lbState } })

/-- The agent loop of `addPeerRequest` over a subscription list, starting
from the zero value of `action`. -/
def addPeerDecide {σ : Type} (pH : PolicyHandler σ) (requestAttr : AddPeerAttr)
    (agents : List String) : Action :=
  agents.foldl (fun action agent =>
    if agent = "AccessControl" then
      (pH.accessControl.RulesLookup Wildcard Wildcard requestAttr.PeerMbg).2.1
    else action) 0

/-- Handler `addPeerRequest`. `encodeErr` tells whether `Encode` on the
response writer returned an error: the handler then logs and returns before
the state update. -/
def addPeerRequest {σ : Type} (pH : PolicyHandler σ) (body : Except String AddPeerAttr)
    (encodeErr : Bool) : HttpReply AddPeerResp × PolicyHandler σ :=
  match body with
  | .error err => (HttpReply.badRequest err, pH)
  | .ok requestAttr =>
    let action := addPeerDecide pH requestAttr (pH.SubscriptionMap AddPeerRequest)
    let reply : HttpReply AddPeerResp := HttpReply.okJson { Action := action }
    if encodeErr then (reply, pH)
    else if action ≠ Deny then
      (reply, { pH with mbgState := { mbgPeers := addPeer pH.mbgState.mbgPeers requestAttr.PeerMbg } })
    else (reply, pH)

/-- Handler `removePeerRequest`. -/
def removePeerRequest {σ : Type} (pH : PolicyHandler σ) (body : Except String AddPeerAttr) :
    HttpReply Unit × PolicyHandler σ :=
  match body with
  | .error err => (HttpReply.badRequest err, pH)
  | .ok requestAttr =>
    (HttpReply.okEmpty,
      { pH with
        mbgState := { mbgPeers := removePeer pH.mbgState.mbgPeers requestAttr.PeerMbg }
        loadBalancer := { pH.loadBalancer with
          state := pH.loadBalancer.RemoveMbgFromServiceMap pH.loadBalancer.state
            requestAttr.PeerMbg } })

/-- The agent loop of `newRemoteService` over a subscription list. -/
def newRemoteServiceDecide {σ : Type} (pH : PolicyHandler σ)
    (requestAttr : NewRemoteServiceAttr) (agents : List String) : Action :=
  agents.foldl (fun action agent =>
    if agent = "AccessControl" then
      (pH.accessControl.Lookup Wildcard requestAttr.Service requestAttr.Mbg Allow).1
    else action) 0

/-- Handler `newRemoteService`. An error of `Encode` is logged and the
handler goes on to the state update, so it changes nothing here. -/
def newRemoteService {σ : Type} (pH : PolicyHandler σ)
    (body : Except String NewRemoteServiceAttr) :
    HttpReply NewRemoteServiceResp × PolicyHandler σ :=
  match body with
  | .error err => (HttpReply.badRequest err, pH)
  | .ok requestAttr =>
    let action := newRemoteServiceDecide pH requestAttr (pH.SubscriptionMap NewRemoteService)
    let reply : HttpReply NewRemoteServiceResp := HttpReply.okJson { Action := action }
    if action ≠ Deny then
      (reply, { pH with loadBalancer := { pH.loadBalancer with
        state := pH.loadBalancer.AddToServiceMap pH.loadBalancer.state
          requestAttr.Service requestAttr.Mbg } })
    else (reply, pH)

/-- Handler `removeRemoteServiceRequest`. -/
def removeRemoteServiceRequest {σ : Type} (pH : PolicyHandler σ)
    (body : Except String RemoveRemoteServiceAttr) : HttpReply Unit × PolicyHandler σ :=
  match body with
  | .error err => (HttpReply.badRequest err, pH)
  | .ok requestAttr =>
    (HttpReply.okEmpty,
      { pH with loadBalancer := { pH.loadBalancer with
        state := pH.loadBalancer.RemoveDestService pH.loadBalancer.state
          requestAttr.Service requestAttr.Mbg } })

/-- The agent loop of `exposeRequest` over a subscription list, starting from
`action := AllowAll` and the nil slice. -/
def exposeDecide {σ : Type} (pH : PolicyHandler σ) (requestAttr : ExposeRequestAttr)
    (agents : List String) : Action × List String :=
  agents.foldl (fun acc agent =>
    if agent = "AccessControl" then
      pH.accessControl.LookupTarget requestAttr.Service pH.mbgState.mbgPeers
    else acc) (AllowAll, [])

/-- Handler `exposeRequest`. An error of the final `Encode` is logged and the
handler returns, which changes nothing. -/
def exposeRequest {σ : Type} (pH : PolicyHandler σ) (body : Except String ExposeRequestAttr) :
    HttpReply ExposeRequestResp × PolicyHandler σ :=
  match body with
  | .error err => (HttpReply.badRequest err, pH)
  | .ok requestAttr =>
    let r := exposeDecide pH requestAttr (pH.SubscriptionMap ExposeRequest)
    (HttpReply.okJson { Action := r.1, TargetMbgs := r.2 }, pH)

/-- The subscription table that `init` builds. -/
def initSubscriptionMap : String → List String := fun event =>
  if event = NewConnectionRequest then ["AccessControl", "LoadBalancer"]
  else if event = AddPeerRequest then ["AccessControl"]
  else if event = NewRemoteService then ["AccessControl"]
  else if event = ExposeRequest then ["AccessControl"]
  else []

/-- Method `init`, without the routing: the handler it sets up, given the
two agents after their own `Init()`. The peer list starts empty. -/
def init {σ : Type} (accessControl : AccessControl) (loadBalancer : LoadBalancer σ) :
    PolicyHandler σ :=
  { SubscriptionMap := initSubscriptionMap
    accessControl := accessControl
    loadBalancer := loadBalancer
    mbgState := { mbgPeers := [] } }

/-- A request to one of the six event routes of `Routes`, with what the
handler reads from its environment. -/
inductive Request where
  | newConnectionRequest (body : Except String ConnectionRequestAttr)
  | addPeerRequest (body : Except String AddPeerAttr) (encodeErr : Bool)
  | removePeerRequest (body : Except String AddPeerAttr)
  | newRemoteService (body : Except String NewRemoteServiceAttr)
  | removeRemoteServiceRequest (body : Except String RemoveRemoteServiceAttr)
  | exposeRequest (body : Except String ExposeRequestAttr)

/-- The reply of one of the six event routes. -/
inductive Reply where
  | newConnectionRequest (r : HttpReply ConnectionRequestResp)
  | addPeerRequest (r : HttpReply AddPeerResp)
  | removePeerRequest (r : HttpReply Unit)
  | newRemoteService (r : HttpReply NewRemoteServiceResp)
  | removeRemoteServiceRequest (r : HttpReply Unit)
  | exposeRequest (r : HttpReply ExposeRequestResp)

/-- The six event routes of `Routes`: each request goes to its handler. -/
def route {σ : Type} (pH : PolicyHandler σ) : Request → Reply × PolicyHandler σ
  | .newConnectionRequest body =>
    let r := newConnectionRequest pH body
    (.newConnectionRequest r.1, r.2)
  | .addPeerRequest body encodeErr =>
    let r := addPeerRequest pH body encodeErr
    (.addPeerRequest r.1, r.2)
  | .removePeerRequest body =>
    let r := removePeerRequest pH body
    (.removePeerRequest r.1, r.2)
  | .newRemoteService body =>
    let r := newRemoteService pH body
    (.newRemoteService r.1, r.2)
  | .removeRemoteServiceRequest body =>
    let r := removeRemoteServiceRequest pH body
    (.removeRemoteServiceRequest r.1, r.2)
  | .exposeRequest body =>
    let r := exposeRequest pH body
    (.exposeRequest r.1, r.2)

/-- The handler state after a sequence of requests, served one after the
other. -/
def serve {σ : Type} (pH : PolicyHandler σ) : List Request → PolicyHandler σ
  | [] => pH
  | req :: rest => serve (route pH req).2 rest

/-- The name of the event a request belongs to, the key of its subscription
list. The two removal routes have no subscription list. -/
def Request.event : Request → String
  | .newConnectionRequest _ => NewConnectionRequest
  | .addPeerRequest _ _ => AddPeerRequest
  | .removePeerRequest _ => RemovePeerRequest
  | .newRemoteService _ => NewRemoteService
  | .removeRemoteServiceRequest _ => RemoveRemoteService
  | .exposeRequest _ => ExposeRequest

/-- The agent names that the `switch` of a request's handler has a `case`
for; every other name falls to `default`. -/
def Request.recognized : Request → String → Bool
  | .newConnectionRequest _, agent =>
    decide (agent = "AccessControl") || decide (agent = "LoadBalancer")
  | .addPeerRequest _ _, agent => decide (agent = "AccessControl")
  | .newRemoteService _, agent => decide (agent = "AccessControl")
  | .exposeRequest _, agent => decide (agent = "AccessControl")
  | .removePeerRequest _, _ => false
  | .removeRemoteServiceRequest _, _ => false

/-- Modelled from the spec: the state of the Load Balancing Registry and
Selector (section 4.3), whose implementation (`LoadBalancer`) is missing from
the sources. `ServiceMap` is the ServiceProviderMap, from a service to the
ordered peers known to provide it (`none` for an unknown service); `cursor`
is the per-service round-robin cursor. -/
structure RegistryState where
  ServiceMap : String → Option (List String)
  cursor : String → Nat

/-- Modelled from the spec: the registry at Orchestrator start, which is
missing from the sources (`LoadBalancer.Init`): created empty. -/
def RegistryState.empty : RegistryState :=
  { ServiceMap := fun _ => none, cursor := fun _ => 0 }

/-- Modelled from the spec: `GetProviders(service)`, missing from the sources
(`LoadBalancer.GetTargetMbgs`): the ordered peers, or a not-found signal if
the service is unknown. -/
def RegistryState.GetTargetMbgs (st : RegistryState) (service : String) :
    Option (List String) :=
  st.ServiceMap service

/-- Modelled from the spec: `AddProvider(service, peer)`, missing from the
sources (`LoadBalancer.AddToServiceMap`): idempotent insert, a no-op if the
peer is already registered for the service. -/
def RegistryState.AddToServiceMap (st : RegistryState) (service peer : String) :
    RegistryState :=
  { st with ServiceMap := fun k =>
      if k = service then
        match st.ServiceMap service with
        | none => some [peer]
        | some l => if peer ∈ l then some l else some (l ++ [peer])
      else st.ServiceMap k }

/-- Modelled from the spec: `RemovePeerEverywhere(peer)`, missing from the
sources (`LoadBalancer.RemoveMbgFromServiceMap`): removes the peer from every
service's provider list. -/
def RegistryState.RemoveMbgFromServiceMap (st : RegistryState) (peer : String) :
    RegistryState :=
  { st with ServiceMap := fun k =>
      (st.ServiceMap k).map (fun l => l.filter (fun q => decide (q ≠ peer))) }

/-- Modelled from the spec: `RemoveProvider(service, peer)`, missing from the
sources (`LoadBalancer.RemoveDestService`): idempotent remove. -/
def RegistryState.RemoveDestService (st : RegistryState) (service peer : String) :
    RegistryState :=
  { st with ServiceMap := fun k =>
      if k = service then
        (st.ServiceMap service).map (fun l => l.filter (fun q => decide (q ≠ peer)))
      else st.ServiceMap k }

/-- Modelled from the spec: `SelectOne(service, candidates)`, missing from
the sources (`LoadBalancer.LookupWith`), under the default policy: a
not-found signal if the candidates are empty, else round-robin over the
candidates, advancing the cursor of the destination service on every call. -/
def RegistryState.LookupWith (st : RegistryState) (_src dst : String)
    (candidates : List String) : (String × Bool) × RegistryState :=
  if candidates = [] then (("", true), st)
  else
    ((candidates.getD (st.cursor dst % candidates.length) "", false),
      { st with cursor := fun k => if k = dst then st.cursor dst + 1 else st.cursor k })

/-- Modelled from the spec: the `LoadBalancer` of section 4.3 over a registry
state, its implementation being missing from the sources. -/
def specLoadBalancer (st : RegistryState) : LoadBalancer RegistryState :=
  { state := st
    GetTargetMbgs := RegistryState.GetTargetMbgs
    LookupWith := RegistryState.LookupWith
    AddToServiceMap := RegistryState.AddToServiceMap
    RemoveMbgFromServiceMap := RegistryState.RemoveMbgFromServiceMap
    RemoveDestService := RegistryState.RemoveDestService }

end policyEngine

namespace eventManager

/-- Go `type EventManager struct`; the HTTP client is part of `Wire`. -/
structure EventManager where
  PolicyDispatcherTarget : String
  MetricsManagerTarget : String
  deriving DecidableEq, Repr

/-- What a `Raise...Event` method calls outside the package, for a request
type `α` and a response type `β`: `json.Marshal`, `httputils.HttpPost` with
the manager's client (result bytes and error), and `json.Unmarshal`. -/
structure Wire (α β : Type) where
  Marshal : α → Except String String
  HttpPost : String → String → String × Option String
  Unmarshal : String → Except String β

/-- The outcome of a `Raise...Event` method: the response, the error (`none`
for nil), and the HTTP posts made, each as URL and body. -/
structure Raised (β : Type) where
  resp : β
  err : Option String
  posts : List (String × String)

/-- Method `RaiseNewConnectionRequestEvent`. The error of `HttpPost` is
overwritten by that of `json.Unmarshal`. -/
def EventManager.RaiseNewConnectionRequestEvent (m : EventManager)
    (w : Wire ConnectionRequestAttr ConnectionRequestResp)
    (connectionAttr : ConnectionRequestAttr) : Raised ConnectionRequestResp :=
  let url := m.PolicyDispatcherTarget ++ "/" ++ NewConnectionRequest
  if m.PolicyDispatcherTarget ≠ "" then
    match w.Marshal connectionAttr with
    | .error err =>
      { resp := { Action := Allow, TargetMbg := "", BitRate := 0 }, err := some err, posts := [] }
    | .ok jsonReq =>
      let resp := (w.HttpPost url jsonReq).1
      match w.Unmarshal resp with
      | .error err =>
        { resp := { Action := Allow, TargetMbg := "", BitRate := 0 }, err := some err,
          posts := [(url, jsonReq)] }
      | .ok r => { resp := r, err := none, posts := [(url, jsonReq)] }
  else
    { resp := { Action := Allow, TargetMbg := "", BitRate := 0 }, err := none, posts := [] }

/-- Method `RaiseConnectionStatusEvent`. -/
def EventManager.RaiseConnectionStatusEvent (m : EventManager)
    (w : Wire ConnectionStatusAttr Unit)
    (connectionStatusAttr : ConnectionStatusAttr) : Raised Unit :=
  let url := m.MetricsManagerTarget ++ "/" ++ ConnectionStatus
  if m.MetricsManagerTarget ≠ "" then
    match w.Marshal connectionStatusAttr with
    | .error err => { resp := (), err := some err, posts := [] }
    | .ok jsonReq => { resp := (), err := (w.HttpPost url jsonReq).2, posts := [(url, jsonReq)] }
  else { resp := (), err := none, posts := [] }

/-- Method `RaiseNewRemoteServiceEvent`. -/
def EventManager.RaiseNewRemoteServiceEvent (m : EventManager)
    (w : Wire NewRemoteServiceAttr NewRemoteServiceResp)
    (remoteServiceAttr : NewRemoteServiceAttr) : Raised NewRemoteServiceResp :=
  let url := m.PolicyDispatcherTarget ++ "/" ++ NewRemoteService
  if m.PolicyDispatcherTarget ≠ "" then
    match w.Marshal remoteServiceAttr with
    | .error err => { resp := { Action := Allow }, err := some err, posts := [] }
    | .ok jsonReq =>
      match w.HttpPost url jsonReq with
      | (_, some err) => { resp := { Action := Allow }, err := some err, posts := [(url, jsonReq)] }
      | (resp, none) =>
        match w.Unmarshal resp with
        | .error err => { resp := { Action := Allow }, err := some err, posts := [(url, jsonReq)] }
        | .ok r => { resp := r, err := none, posts := [(url, jsonReq)] }
  else { resp := { Action := Allow }, err := none, posts := [] }

/-- Method `RaiseExposeRequestEvent`. -/
def EventManager.RaiseExposeRequestEvent (m : EventManager)
    (w : Wire ExposeRequestAttr ExposeRequestResp)
    (exposeRequestAttr : ExposeRequestAttr) : Raised ExposeRequestResp :=
  let url := m.PolicyDispatcherTarget ++ "/" ++ ExposeRequest
  if m.PolicyDispatcherTarget ≠ "" then
    match w.Marshal exposeRequestAttr with
    | .error err => { resp := { Action := Allow, TargetMbgs := [] }, err := some err, posts := [] }
    | .ok jsonReq =>
      match w.HttpPost url jsonReq with
      | (_, some err) =>
        { resp := { Action := Allow, TargetMbgs := [] }, err := some err, posts := [(url, jsonReq)] }
      | (resp, none) =>
        match w.Unmarshal resp with
        | .error err =>
          { resp := { Action := Allow, TargetMbgs := [] }, err := some err,
            posts := [(url, jsonReq)] }
        | .ok r => { resp := r, err := none, posts := [(url, jsonReq)] }
  else { resp := { Action := AllowAll, TargetMbgs := [] }, err := none, posts := [] }

/-- Method `RaiseAddPeerEvent`. -/
def EventManager.RaiseAddPeerEvent (m : EventManager) (w : Wire AddPeerAttr AddPeerResp)
    (addPeerAttr : AddPeerAttr) : Raised AddPeerResp :=
  let url := m.PolicyDispatcherTarget ++ "/" ++ AddPeerRequest
  if m.PolicyDispatcherTarget ≠ "" then
    match w.Marshal addPeerAttr with
    | .error err => { resp := { Action := Allow }, err := some err, posts := [] }
    | .ok jsonReq =>
      match w.HttpPost url jsonReq with
      | (_, some err) => { resp := { Action := Allow }, err := some err, posts := [(url, jsonReq)] }
      | (resp, none) =>
        match w.Unmarshal resp with
        | .error err => { resp := { Action := Allow }, err := some err, posts := [(url, jsonReq)] }
        | .ok r => { resp := r, err := none, posts := [(url, jsonReq)] }
  else { resp := { Action := Allow }, err := none, posts := [] }

/-- Method `RaiseRemovePeerEvent`. An error of `HttpPost` is logged. -/
def EventManager.RaiseRemovePeerEvent (m : EventManager) (w : Wire RemovePeerAttr Unit)
    (removePeerAttr : RemovePeerAttr) : Raised Unit :=
  let url := m.PolicyDispatcherTarget ++ "/" ++ RemovePeerRequest
  if m.PolicyDispatcherTarget ≠ "" then
    match w.Marshal removePeerAttr with
    | .error err => { resp := (), err := some err, posts := [] }
    | .ok jsonReq => { resp := (), err := none, posts := [(url, jsonReq)] }
  else { resp := (), err := none, posts := [] }

/-- Method `RaiseRemoveRemoteServiceEvent`. The result of `HttpPost` is only
compared with `httputils.RESPFAIL` for a log line. -/
def EventManager.RaiseRemoveRemoteServiceEvent (m : EventManager)
    (w : Wire RemoveRemoteServiceAttr Unit)
    (removeRemoteServiceAttr : RemoveRemoteServiceAttr) : Raised Unit :=
  let url := m.PolicyDispatcherTarget ++ "/" ++ RemoveRemoteService
  if m.PolicyDispatcherTarget ≠ "" then
    match w.Marshal removeRemoteServiceAttr with
    | .error err => { resp := (), err := some err, posts := [] }
    | .ok jsonReq => { resp := (), err := none, posts := [(url, jsonReq)] }
  else { resp := (), err := none, posts := [] }

end eventManager

/-! ## Sample configurations

Small concrete agents and handlers, on which the handlers are evaluated. -/

namespace policyEngine

open eventManager

/-- An access control agent with default rule `Allow` whose one rule denies
peer `P1`: any lookup for `P1` is `Deny`, any other lookup is the fallback,
with a bitrate of 100. -/
def sampleAccessControl : AccessControl :=
  { DefaultRule := Allow
    Lookup := fun _ _ mbg fallback => if mbg = "P1" then (Deny, 0) else (fallback, 100)
    RulesLookup := fun _ _ mbg => if mbg = "P1" then (0, Deny, 0) else (-1, Allow, 100)
    LookupTarget := fun _ peers =>
      let allowed := peers.filter (fun q => decide (q ≠ "P1"))
      if allowed = peers then (AllowAll, allowed)
      else if allowed = [] then (Deny, allowed)
      else (AllowPartial, allowed) }

/-- A registry in which service `svc` is provided by `P1` and `P2`. -/
def sampleRegistry : RegistryState :=
  { ServiceMap := fun k => if k = "svc" then some ["P1", "P2"] else none
    cursor := fun _ => 0 }

/-- A registry in which service `svc` is provided by `P1` alone. -/
def sampleRegistryP1 : RegistryState :=
  { ServiceMap := fun k => if k = "svc" then some ["P1"] else none
    cursor := fun _ => 0 }

/-- The handler of `init` over `sampleAccessControl` and `sampleRegistry`. -/
def sampleHandler : PolicyHandler RegistryState :=
  init sampleAccessControl (specLoadBalancer sampleRegistry)

/-- The handler of `init` over `sampleAccessControl` and `sampleRegistryP1`. -/
def sampleHandlerP1 : PolicyHandler RegistryState :=
  init sampleAccessControl (specLoadBalancer sampleRegistryP1)

/-- An outgoing connection request from `app` to `svc`. -/
def sampleOutgoing : ConnectionRequestAttr :=
  { SrcService := "app", DstService := "svc", Direction := Outgoing, OtherMbg := "" }

/-- An incoming connection request from `app` to `svc` through peer `P2`. -/
def sampleIncoming : ConnectionRequestAttr :=
  { SrcService := "app", DstService := "svc", Direction := Incoming, OtherMbg := "P2" }

end policyEngine

namespace policyEngine

open eventManager

/-- A call of `addPeer` or of `removePeer` on the peer list. -/
inductive PeerOp where
  | addPeer (peerMbg : String)
  | removePeer (peerMbg : String)
  deriving DecidableEq, Repr

/-- The peer list after a sequence of `addPeer` and `removePeer` calls. -/
def applyPeerOps : List String → List PeerOp → List String
  | peers, [] => peers
  | peers, .addPeer p :: rest => applyPeerOps (addPeer peers p) rest
  | peers, .removePeer p :: rest => applyPeerOps (removePeer peers p) rest

/-- The handler states that can be reached: from any handler with an empty
peer list, by serving requests on the six event routes, and by any change to
the access control agent (the `/acl` routes) or to the load balancer (the
`/lb` routes), none of which touches the peer list. -/
inductive Reachable {σ : Type} : PolicyHandler σ → Prop where
  | start (pH : PolicyHandler σ) (h : pH.mbgState.mbgPeers = []) : Reachable pH
  | route (pH : PolicyHandler σ) (req : Request) (h : Reachable pH) : Reachable (route pH req).2
  | acl (pH : PolicyHandler σ) (ac : AccessControl) (h : Reachable pH) :
    Reachable { pH with accessControl := ac }
  | lb (pH : PolicyHandler σ) (lb : LoadBalancer σ) (h : Reachable pH) :
    Reachable { pH with loadBalancer := lb }

/-- Every peer that the service-provider map lists for some service is in the
peer list. -/
def ProvidersArePeers (pH : PolicyHandler RegistryState) : Prop :=
  ∀ service providers, pH.loadBalancer.state.ServiceMap service = some providers →
    ∀ p ∈ providers, p ∈ pH.mbgState.mbgPeers

/-- Along a sequence of requests, every well-formed `NewRemoteService`
request names a peer that is in the peer list when the request is served. -/
def AnnouncedByPeers {σ : Type} : PolicyHandler σ → List Request → Prop
  | _, [] => True
  | pH, .newRemoteService (.ok requestAttr) :: rest =>
    requestAttr.Mbg ∈ pH.mbgState.mbgPeers ∧
      AnnouncedByPeers (route pH (.newRemoteService (.ok requestAttr))).2 rest
  | pH, req :: rest => AnnouncedByPeers (route pH req).2 rest

/-- The handler of `init` over an access control agent and the registry of
section 4.3 in its initial, empty state. -/
def initEmpty (accessControl : AccessControl) : PolicyHandler RegistryState :=
  init accessControl (specLoadBalancer RegistryState.empty)

/-- A handler with the given subscription list for every event, over
`sampleAccessControl` and `sampleRegistry`. -/
def sampleHandlerWith (agents : List String) : PolicyHandler RegistryState :=
  { SubscriptionMap := fun _ => agents
    accessControl := sampleAccessControl
    loadBalancer := specLoadBalancer sampleRegistry
    mbgState := { mbgPeers := [] } }

end policyEngine

namespace eventManager

/-- An event manager with no dispatcher and no metrics manager assigned. -/
def sampleUnassigned : EventManager :=
  { PolicyDispatcherTarget := "", MetricsManagerTarget := "" }

/-- A wire on which marshalling succeeds, every post fails and nothing
decodes. -/
def sampleDeadWire (α β : Type) : Wire α β :=
  { Marshal := fun _ => .ok "{}"
    HttpPost := fun _ _ => ("", some "connection refused")
    Unmarshal := fun _ => .error "unexpected end of JSON input" }

end eventManager

namespace eventManager

/-- An event manager with a dispatcher and a metrics manager assigned. -/
def sampleAssigned : EventManager :=
  { PolicyDispatcherTarget := "http://policy", MetricsManagerTarget := "http://metrics" }

/-- A wire on which marshalling succeeds, every post returns both a body and
an error, and the body decodes to `r`. -/
def sampleStaleWire (α β : Type) (r : β) : Wire α β :=
  { Marshal := fun _ => .ok "request"
    HttpPost := fun _ _ => ("response", some "502 Bad Gateway")
    Unmarshal := fun _ => .ok r }

/-- An outgoing connection request from `app` to `svc`, as the gateway sends
it. -/
def sampleConnectionRequest : ConnectionRequestAttr :=
  { SrcService := "app", DstService := "svc", Direction := Outgoing, OtherMbg := "" }

/-- A status report of an ongoing outgoing connection. -/
def sampleConnectionStatus : ConnectionStatusAttr :=
  { ConnectionId := "c1", SrcService := "app", DstService := "svc", IncomingBytes := 10,
    OutgoingBytes := 20, DestinationPeer := "P2", StartTstamp := 0, LastTstamp := 1,
    Direction := Outgoing, State := 0 }

end eventManager

namespace policyEngine

open eventManager

/-- The handler of `init` over `sampleAccessControl` and `sampleRegistry`
whose peer list holds `P1`, `P2` and `P3`. -/
def sampleHandlerPeers : PolicyHandler RegistryState :=
  { sampleHandler with mbgState := { mbgPeers := ["P1", "P2", "P3"] } }

end policyEngine

namespace policyEngine

open eventManager

/-- The outgoing request of `sampleOutgoing` with the optional peer field
set to `P1`. -/
def sampleOutgoingVia : ConnectionRequestAttr :=
  { SrcService := "app", DstService := "svc", Direction := Outgoing, OtherMbg := "P1" }

end policyEngine

namespace policyEngine

open eventManager

/-- A load balancer over the registry of section 4.3 whose selector, on an
empty candidate list, returns the string `stale` with its error; on any other
list it is the round-robin selector. -/
def staleLoadBalancer (st : RegistryState) : LoadBalancer RegistryState :=
  { specLoadBalancer st with
    LookupWith := fun st src dst candidates =>
      if candidates = [] then (("stale", true), st)
      else RegistryState.LookupWith st src dst candidates }

/-- The handler of `init` over `sampleAccessControl` and the stale selector
on `sampleRegistryP1`. -/
def sampleHandlerStale : PolicyHandler RegistryState :=
  init sampleAccessControl (staleLoadBalancer sampleRegistryP1)

end policyEngine

/-! # Theorems -/

namespace policyEngine

open eventManager

/-! ## Connection requests -/

theorem outgoing_ne_incoming : Outgoing ≠ Incoming := by decide

theorem allow_ne_deny : Allow ≠ Deny := by decide

/-- With the subscription list of `init`, the decision on an outgoing request
is the one of the `LoadBalancer` case alone. -/
theorem connDecide_outgoing {σ : Type} (pH : PolicyHandler σ) (req : ConnectionRequestAttr)
    (hdir : req.Direction = Outgoing) :
    connDecide pH req ["AccessControl", "LoadBalancer"] =
      match pH.loadBalancer.GetTargetMbgs pH.loadBalancer.state req.DstService with
      | none => { action := Deny, targetMbg := "", bitrate := 0,
                  lbState := pH.loadBalancer.state }
      | some mbgList =>
        let r := pH.loadBalancer.LookupWith pH.loadBalancer.state req.SrcService req.DstService
          (mbgList.filter (fun mbg =>
            decide ((pH.accessControl.Lookup req.SrcService req.DstService mbg
              pH.accessControl.DefaultRule).1 ≠ Deny)))
        { action := if r.1.2 then Deny else Allow, targetMbg := r.1.1, bitrate := 0,
          lbState := r.2 } := by
  simp only [connDecide, List.foldl, connAgent, hdir, outgoing_ne_incoming, if_true, if_false,
    show ("LoadBalancer" = "AccessControl") = False from by decide]

/-- With the subscription list of `init`, the decision on an incoming request
is the one of the `AccessControl` case alone. -/
theorem connDecide_incoming {σ : Type} (pH : PolicyHandler σ) (req : ConnectionRequestAttr)
    (hdir : req.Direction = Incoming) :
    connDecide pH req ["AccessControl", "LoadBalancer"] =
      { action := (pH.accessControl.Lookup req.SrcService req.DstService req.OtherMbg Allow).1
        targetMbg := ""
        bitrate := (pH.accessControl.Lookup req.SrcService req.DstService req.OtherMbg Allow).2
        lbState := pH.loadBalancer.state } := by
  simp only [connDecide, List.foldl, connAgent, hdir, outgoing_ne_incoming.symm, if_true,
    if_false, show ("LoadBalancer" = "AccessControl") = False from by decide]

end policyEngine

namespace policyEngine

open eventManager

/-- C1: with the subscription list `[AccessControl, LoadBalancer]`, if an
outgoing connection request is answered with `Allow`, the target peer is one
of the providers `GetTargetMbgs` reports for the destination service and its
`Lookup(src, dst, target, DefaultRule)` is not `Deny`; the selector is assumed
to return, when it returns without error, a member of the candidates it was
given. -/
theorem newConnectionRequest_allow_target_is_allowed_provider {σ : Type}
    (pH : PolicyHandler σ) (req : ConnectionRequestAttr) (resp : ConnectionRequestResp)
    (hsub : pH.SubscriptionMap NewConnectionRequest = ["AccessControl", "LoadBalancer"])
    (hdir : req.Direction = Outgoing)
    (hsel : ∀ st src dst l, (pH.loadBalancer.LookupWith st src dst l).1.2 = false →
      (pH.loadBalancer.LookupWith st src dst l).1.1 ∈ l)
    (hresp : (newConnectionRequest pH (.ok req)).1.body = some resp)
    (hallow : resp.Action = Allow) :
    ∃ mbgList, pH.loadBalancer.GetTargetMbgs pH.loadBalancer.state req.DstService = some mbgList ∧
      resp.TargetMbg ∈ mbgList ∧
      (pH.accessControl.Lookup req.SrcService req.DstService resp.TargetMbg
        pH.accessControl.DefaultRule).1 ≠ Deny := by
  have hd := connDecide_outgoing pH req hdir
  simp only [newConnectionRequest, hsub, HttpReply.okJson, Option.some.injEq] at hresp
  subst hresp
  simp only at hallow ⊢
  cases hget : pH.loadBalancer.GetTargetMbgs pH.loadBalancer.state req.DstService with
  | none =>
    simp only [hget] at hd
    rw [hd] at hallow
    exact absurd hallow allow_ne_deny.symm
  | some mbgList =>
    simp only [hget] at hd
    rw [hd] at hallow ⊢
    simp only at hallow ⊢
    refine ⟨mbgList, rfl, ?_⟩
    have herr : (pH.loadBalancer.LookupWith pH.loadBalancer.state req.SrcService req.DstService
        (mbgList.filter (fun mbg =>
          decide ((pH.accessControl.Lookup req.SrcService req.DstService mbg
            pH.accessControl.DefaultRule).1 ≠ Deny)))).1.2 = false := by
      by_contra hne
      rw [Bool.not_eq_false] at hne
      simp only [hne, if_true] at hallow
      exact absurd hallow allow_ne_deny.symm
    have hmem := hsel _ _ _ _ herr
    rw [List.mem_filter] at hmem
    exact ⟨hmem.1, by simpa using hmem.2⟩

/-- C1, on a sample: providers `P1` (denied) and `P2` (allowed) give `Allow`
with target `P2`. -/
theorem newConnectionRequest_allow_target_is_allowed_provider_witness :
    (newConnectionRequest sampleHandler (.ok sampleOutgoing)).1.body =
        some { Action := Allow, TargetMbg := "P2", BitRate := 0 } ∧
      ∃ mbgList, sampleHandler.loadBalancer.GetTargetMbgs sampleHandler.loadBalancer.state
          sampleOutgoing.DstService = some mbgList ∧
        "P2" ∈ mbgList ∧
        (sampleHandler.accessControl.Lookup sampleOutgoing.SrcService sampleOutgoing.DstService
          "P2" sampleHandler.accessControl.DefaultRule).1 ≠ Deny :=
  ⟨by decide,
    newConnectionRequest_allow_target_is_allowed_provider sampleHandler sampleOutgoing
      { Action := Allow, TargetMbg := "P2", BitRate := 0 } (by decide) (by decide)
      (by
        intro st src dst l h
        simp only [sampleHandler, init, specLoadBalancer, RegistryState.LookupWith] at h ⊢
        by_cases hl : l = []
        · simp [hl] at h
        · simp only [hl, if_false]
          rw [List.getD_eq_getElem _ _ (Nat.mod_lt _ (List.length_pos.mpr hl))]
          exact List.getElem_mem _)
      (by decide) (by decide)⟩

/-- The round-robin selector of the registry fails exactly on an empty
candidate list, and then returns the empty string. -/
theorem RegistryState.LookupWith_fails_iff (st : RegistryState) (src dst : String)
    (l : List String) :
    ((RegistryState.LookupWith st src dst l).1.2 = true ↔ l = []) ∧
      ((RegistryState.LookupWith st src dst l).1.2 = true →
        (RegistryState.LookupWith st src dst l).1.1 = "") := by
  by_cases hl : l = [] <;> simp [RegistryState.LookupWith, hl]

/-- C2, as stated, fails in its last part: over a selector that fails exactly
on an empty candidate list and returns the string `stale` with its error, the
outgoing request whose one provider `P1` is denied is answered `Deny` with
target `stale`, not with an empty target. -/
theorem newConnectionRequest_deny_target_counterexample :
    (∀ st src dst l,
        (sampleHandlerStale.loadBalancer.LookupWith st src dst l).1.2 = true ↔ l = []) ∧
      sampleHandlerStale.SubscriptionMap NewConnectionRequest =
        ["AccessControl", "LoadBalancer"] ∧
      sampleOutgoing.Direction = Outgoing ∧
      (newConnectionRequest sampleHandlerStale (.ok sampleOutgoing)).1.body =
        some { Action := Deny, TargetMbg := "stale", BitRate := 0 } ∧
      "stale" ≠ "" := by
  refine ⟨?_, by decide, by decide, by decide, by decide⟩
  intro st src dst l
  by_cases hl : l = [] <;>
    simp [sampleHandlerStale, init, staleLoadBalancer, specLoadBalancer,
      RegistryState.LookupWith, hl]

/-- C2, amended: with the subscription list `[AccessControl, LoadBalancer]`
and a selector that fails exactly on an empty candidate list, an outgoing
connection request is answered with `Deny` exactly when `GetTargetMbgs`
reports not-found for the destination service or every provider it reports
has `Lookup(src, dst, p, DefaultRule) = Deny`. When `GetTargetMbgs` reports
not-found the target is empty; when every provider is denied the target is
the string `LookupWith` returned with its error on the empty candidate list,
so it is empty provided a failing `LookupWith` returns the empty string. -/
theorem newConnectionRequest_deny_iff_no_allowed_provider {σ : Type}
    (pH : PolicyHandler σ) (req : ConnectionRequestAttr)
    (hsub : pH.SubscriptionMap NewConnectionRequest = ["AccessControl", "LoadBalancer"])
    (hdir : req.Direction = Outgoing)
    (hfail : ∀ st src dst l, (pH.loadBalancer.LookupWith st src dst l).1.2 = true ↔ l = []) :
    ∃ resp, (newConnectionRequest pH (.ok req)).1.body = some resp ∧
      (resp.Action = Deny ↔
        (pH.loadBalancer.GetTargetMbgs pH.loadBalancer.state req.DstService = none ∨
          ∃ mbgList,
            pH.loadBalancer.GetTargetMbgs pH.loadBalancer.state req.DstService = some mbgList ∧
            ∀ p ∈ mbgList, (pH.accessControl.Lookup req.SrcService req.DstService p
              pH.accessControl.DefaultRule).1 = Deny)) ∧
      (pH.loadBalancer.GetTargetMbgs pH.loadBalancer.state req.DstService = none →
        resp.TargetMbg = "") ∧
      (∀ mbgList,
        pH.loadBalancer.GetTargetMbgs pH.loadBalancer.state req.DstService = some mbgList →
        resp.Action = Deny →
        resp.TargetMbg = (pH.loadBalancer.LookupWith pH.loadBalancer.state req.SrcService
          req.DstService []).1.1) ∧
      ((∀ st src dst l, (pH.loadBalancer.LookupWith st src dst l).1.2 = true →
          (pH.loadBalancer.LookupWith st src dst l).1.1 = "") →
        resp.Action = Deny → resp.TargetMbg = "") := by
  have hd := connDecide_outgoing pH req hdir
  refine ⟨_, by simp only [newConnectionRequest, hsub, HttpReply.okJson]; rfl, ?_⟩
  simp only
  cases hget : pH.loadBalancer.GetTargetMbgs pH.loadBalancer.state req.DstService with
  | none =>
    simp only [hget] at hd
    rw [hd]
    simp
  | some mbgList =>
    simp only [hget] at hd
    rw [hd]
    simp only [Option.some.injEq, false_or, exists_eq_left', reduceCtorEq, false_implies,
      true_and, forall_eq']
    by_cases herr : (pH.loadBalancer.LookupWith pH.loadBalancer.state req.SrcService
        req.DstService (mbgList.filter (fun mbg =>
          decide ((pH.accessControl.Lookup req.SrcService req.DstService mbg
            pH.accessControl.DefaultRule).1 ≠ Deny)))).1.2 = true
    · have hempty := (hfail _ _ _ _).mp herr
      refine ⟨?_, ?_, ?_⟩
      · simp only [herr, if_true, true_iff]
        intro p hp
        by_contra hne
        have : p ∈ mbgList.filter (fun mbg =>
            decide ((pH.accessControl.Lookup req.SrcService req.DstService mbg
              pH.accessControl.DefaultRule).1 ≠ Deny)) :=
          List.mem_filter.mpr ⟨hp, by simpa using hne⟩
        rw [hempty] at this
        exact absurd this (List.not_mem_nil p)
      · intro _
        rw [hempty]
      · intro hzero _
        exact hzero _ _ _ _ herr
    · have hne : ¬ (mbgList.filter (fun mbg =>
          decide ((pH.accessControl.Lookup req.SrcService req.DstService mbg
            pH.accessControl.DefaultRule).1 ≠ Deny))) = [] :=
        fun h => herr ((hfail _ _ _ _).mpr h)
      simp only [herr, if_false, Bool.false_eq_true, allow_ne_deny, false_iff, false_implies,
        and_true, implies_true]
      intro hall
      apply hne
      rw [List.filter_eq_nil_iff]
      intro p hp
      simpa using hall p hp

/-- C2, amended, on a sample: the one provider `P1` of `svc` is denied, the
round-robin selector returns the empty string with its error, and the answer
is `Deny` with an empty target. -/
theorem newConnectionRequest_deny_iff_no_allowed_provider_witness :
    (newConnectionRequest sampleHandlerP1 (.ok sampleOutgoing)).1.body =
        some { Action := Deny, TargetMbg := "", BitRate := 0 } ∧
      ∃ resp, (newConnectionRequest sampleHandlerP1 (.ok sampleOutgoing)).1.body = some resp ∧
        (resp.Action = Deny ↔
          (sampleHandlerP1.loadBalancer.GetTargetMbgs sampleHandlerP1.loadBalancer.state
              sampleOutgoing.DstService = none ∨
            ∃ mbgList,
              sampleHandlerP1.loadBalancer.GetTargetMbgs sampleHandlerP1.loadBalancer.state
                sampleOutgoing.DstService = some mbgList ∧
              ∀ p ∈ mbgList, (sampleHandlerP1.accessControl.Lookup sampleOutgoing.SrcService
                sampleOutgoing.DstService p sampleHandlerP1.accessControl.DefaultRule).1 = Deny)) ∧
        (sampleHandlerP1.loadBalancer.GetTargetMbgs sampleHandlerP1.loadBalancer.state
            sampleOutgoing.DstService = none → resp.TargetMbg = "") ∧
        (∀ mbgList,
          sampleHandlerP1.loadBalancer.GetTargetMbgs sampleHandlerP1.loadBalancer.state
            sampleOutgoing.DstService = some mbgList →
          resp.Action = Deny →
          resp.TargetMbg = (sampleHandlerP1.loadBalancer.LookupWith
            sampleHandlerP1.loadBalancer.state sampleOutgoing.SrcService
            sampleOutgoing.DstService []).1.1) ∧
        ((∀ st src dst l, (sampleHandlerP1.loadBalancer.LookupWith st src dst l).1.2 = true →
            (sampleHandlerP1.loadBalancer.LookupWith st src dst l).1.1 = "") →
          resp.Action = Deny → resp.TargetMbg = "") :=
  ⟨by decide,
    newConnectionRequest_deny_iff_no_allowed_provider sampleHandlerP1 sampleOutgoing
      (by decide) (by decide)
      (fun st src dst l => (RegistryState.LookupWith_fails_iff st src dst l).1)⟩

/-- On an outgoing request no agent touches the bitrate. -/
theorem connAgent_outgoing_bitrate {σ : Type} (pH : PolicyHandler σ)
    (req : ConnectionRequestAttr) (hdir : req.Direction = Outgoing) (d : ConnDecision σ)
    (agent : String) : (connAgent pH req d agent).bitrate = d.bitrate := by
  unfold connAgent
  simp only [hdir, outgoing_ne_incoming, if_true, if_false]
  split
  · rfl
  · split
    · split <;> rfl
    · rfl

/-- On an outgoing request the agent loop leaves the bitrate it started
with. -/
theorem foldl_connAgent_outgoing_bitrate {σ : Type} (pH : PolicyHandler σ)
    (req : ConnectionRequestAttr) (hdir : req.Direction = Outgoing) (agents : List String)
    (d : ConnDecision σ) :
    (agents.foldl (connAgent pH req) d).bitrate = d.bitrate := by
  induction agents generalizing d with
  | nil => rfl
  | cons a rest ih =>
    rw [List.foldl_cons, ih, connAgent_outgoing_bitrate pH req hdir]

/-- C3, as stated, fails: on the sample handler the outgoing request is
allowed with target `P2`, the lookup for `P2` carries the bitrate 100, and the
response carries the bitrate 0. -/
theorem newConnectionRequest_outgoing_bitrate_counterexample :
    sampleOutgoing.Direction = Outgoing ∧
      ∃ resp, (newConnectionRequest sampleHandler (.ok sampleOutgoing)).1.body = some resp ∧
        resp.Action = Allow ∧ resp.TargetMbg = "P2" ∧
        (sampleHandler.accessControl.Lookup sampleOutgoing.SrcService sampleOutgoing.DstService
          resp.TargetMbg sampleHandler.accessControl.DefaultRule).2 = 100 ∧
        resp.BitRate ≠ (sampleHandler.accessControl.Lookup sampleOutgoing.SrcService
          sampleOutgoing.DstService resp.TargetMbg sampleHandler.accessControl.DefaultRule).2 :=
  ⟨by decide, { Action := Allow, TargetMbg := "P2", BitRate := 0 },
    by decide, by decide, by decide, by decide, by decide⟩

/-- C3, amended: for every outgoing connection request, whatever the
subscription list, the `BitRate` of the response is 0; the bitrate that
`Lookup` returns for a candidate peer is discarded. -/
theorem newConnectionRequest_outgoing_bitrate_zero {σ : Type} (pH : PolicyHandler σ)
    (req : ConnectionRequestAttr) (hdir : req.Direction = Outgoing) :
    ∃ resp, (newConnectionRequest pH (.ok req)).1.body = some resp ∧ resp.BitRate = 0 := by
  refine ⟨_, rfl, ?_⟩
  simp only [connDecide]
  rw [foldl_connAgent_outgoing_bitrate pH req hdir]

/-- C3, amended, on the sample handler. -/
theorem newConnectionRequest_outgoing_bitrate_zero_witness :
    sampleOutgoing.Direction = Outgoing ∧
      ∃ resp, (newConnectionRequest sampleHandler (.ok sampleOutgoing)).1.body = some resp ∧
        resp.BitRate = 0 :=
  ⟨by decide, newConnectionRequest_outgoing_bitrate_zero sampleHandler sampleOutgoing (by decide)⟩

/-- Writing back the load balancer state a handler holds changes nothing. -/
theorem PolicyHandler.set_lbState_self {σ : Type} (pH : PolicyHandler σ) :
    { pH with loadBalancer := { pH.loadBalancer with state := pH.loadBalancer.state } } = pH := by
  cases pH
  rfl

/-- C4: with the subscription list `[AccessControl, LoadBalancer]`, an
incoming connection request is answered with the action and the bitrate of
the one call `Lookup(src, dst, peer, Allow)` and an empty target; the handler
state, load balancer included, is unchanged, and the reply is the same
whatever the load balancer is. -/
theorem newConnectionRequest_incoming {σ : Type} (pH : PolicyHandler σ)
    (req : ConnectionRequestAttr)
    (hsub : pH.SubscriptionMap NewConnectionRequest = ["AccessControl", "LoadBalancer"])
    (hdir : req.Direction = Incoming) :
    newConnectionRequest pH (.ok req) =
        (HttpReply.okJson
          { Action := (pH.accessControl.Lookup req.SrcService req.DstService req.OtherMbg Allow).1
            TargetMbg := ""
            BitRate := (pH.accessControl.Lookup req.SrcService req.DstService req.OtherMbg
              Allow).2 }, pH) ∧
      ∀ lb : LoadBalancer σ,
        (newConnectionRequest { pH with loadBalancer := lb } (.ok req)).1 =
          (newConnectionRequest pH (.ok req)).1 := by
  have key : ∀ qH : PolicyHandler σ,
      qH.SubscriptionMap NewConnectionRequest = ["AccessControl", "LoadBalancer"] →
      newConnectionRequest qH (.ok req) =
        (HttpReply.okJson
          { Action := (qH.accessControl.Lookup req.SrcService req.DstService req.OtherMbg Allow).1
            TargetMbg := ""
            BitRate := (qH.accessControl.Lookup req.SrcService req.DstService req.OtherMbg
              Allow).2 }, qH) := by
    intro qH hq
    simp only [newConnectionRequest, hq, connDecide_incoming qH req hdir,
      PolicyHandler.set_lbState_self]
  refine ⟨key pH hsub, ?_⟩
  intro lb
  rw [key pH hsub, key { pH with loadBalancer := lb } hsub]

/-- C4, on the sample handler: the incoming request through `P2` gets the
lookup result with fallback `Allow`. -/
theorem newConnectionRequest_incoming_witness :
    (newConnectionRequest sampleHandler (.ok sampleIncoming)).1.body =
        some { Action := Allow, TargetMbg := "", BitRate := 100 } ∧
      (newConnectionRequest sampleHandler (.ok sampleIncoming) =
          (HttpReply.okJson
            { Action := (sampleHandler.accessControl.Lookup sampleIncoming.SrcService
                sampleIncoming.DstService sampleIncoming.OtherMbg Allow).1
              TargetMbg := ""
              BitRate := (sampleHandler.accessControl.Lookup sampleIncoming.SrcService
                sampleIncoming.DstService sampleIncoming.OtherMbg Allow).2 }, sampleHandler) ∧
        ∀ lb : LoadBalancer RegistryState,
          (newConnectionRequest { sampleHandler with loadBalancer := lb }
            (.ok sampleIncoming)).1 =
            (newConnectionRequest sampleHandler (.ok sampleIncoming)).1) :=
  ⟨by decide, newConnectionRequest_incoming sampleHandler sampleIncoming (by decide) (by decide)⟩

/-! ## The peer list -/

/-- The flag of `exists` tells membership. -/
theorem sliceExists_snd (l : List String) (p : String) :
    (sliceExists l p).2 = true ↔ p ∈ l := by
  induction l with
  | nil => simp [sliceExists]
  | cons e rest ih =>
    by_cases he : e = p
    · simp [sliceExists, he]
    · have hpe : ¬ p = e := fun h => he h.symm
      by_cases hr : (sliceExists rest p).2 = true
      · simp [sliceExists, he, hr, ih.mp hr]
      · have hnot : p ∉ rest := fun h => hr (ih.mpr h)
        simp [sliceExists, he, hr, hnot, hpe]

/-- The index of `exists` is not negative when the entry was found. -/
theorem sliceExists_fst_nonneg (l : List String) (p : String)
    (h : (sliceExists l p).2 = true) : 0 ≤ (sliceExists l p).1 := by
  induction l with
  | nil => simp [sliceExists] at h
  | cons e rest ih =>
    by_cases he : e = p
    · simp [sliceExists, he]
    · by_cases hr : (sliceExists rest p).2 = true
      · have := ih hr
        simp only [sliceExists, he, hr, if_true, if_false]
        omega
      · simp [sliceExists, he, hr] at h

/-- Method `addPeer` appends the peer unless it is in the list. -/
theorem addPeer_eq (l : List String) (p : String) :
    addPeer l p = if p ∈ l then l else l ++ [p] := by
  unfold addPeer
  by_cases h : p ∈ l
  · simp [h, (sliceExists_snd l p).mpr h]
  · have : ¬ (sliceExists l p).2 = true := fun hs => h ((sliceExists_snd l p).mp hs)
    simp [h, this]

/-- Method `removePeer` erases the first occurrence of the peer. -/
theorem removePeer_eq_erase (l : List String) (p : String) : removePeer l p = l.erase p := by
  induction l with
  | nil => simp [removePeer, sliceExists]
  | cons e rest ih =>
    by_cases he : e = p
    · simp [removePeer, sliceExists, he]
    · have hbeq : ¬ (e == p) = true := by simpa using he
      rw [List.erase_cons_tail hbeq, ← ih]
      by_cases hr : (sliceExists rest p).2 = true
      · have hnn := sliceExists_fst_nonneg rest p hr
        have hidx : ((sliceExists rest p).1 + 1).toNat = (sliceExists rest p).1.toNat + 1 := by
          omega
        simp only [removePeer, sliceExists, he, hr, if_true, if_false, Bool.not_true,
          Bool.false_eq_true, hidx, List.take_succ_cons, List.drop_succ_cons, List.cons_append]
      · simp [removePeer, sliceExists, he, hr]

theorem addPeer_nodup (l : List String) (p : String) (h : l.Nodup) : (addPeer l p).Nodup := by
  rw [addPeer_eq]
  by_cases hp : p ∈ l
  · simpa [hp] using h
  · simp only [hp, if_false]
    exact List.Nodup.append h (List.nodup_singleton p) (by simpa using hp)

theorem removePeer_nodup (l : List String) (p : String) (h : l.Nodup) :
    (removePeer l p).Nodup := by
  rw [removePeer_eq_erase]
  exact h.erase p

theorem applyPeerOps_nodup (ops : List PeerOp) (l : List String) (h : l.Nodup) :
    (applyPeerOps l ops).Nodup := by
  induction ops generalizing l with
  | nil => exact h
  | cons op rest ih =>
    cases op with
    | addPeer p => exact ih _ (addPeer_nodup l p h)
    | removePeer p => exact ih _ (removePeer_nodup l p h)

/-- C7: starting from the empty peer list, after any sequence of `addPeer`
and `removePeer` calls every peer identifier occurs at most once; and
`addPeer(p)` on a list that contains `p` leaves the list as it is. -/
theorem peer_list_has_no_duplicate :
    (∀ (ops : List PeerOp) (p : String), (applyPeerOps [] ops).count p ≤ 1) ∧
      ∀ (l : List String) (p : String), p ∈ l → addPeer l p = l := by
  refine ⟨?_, ?_⟩
  · intro ops p
    exact List.nodup_iff_count_le_one.mp (applyPeerOps_nodup ops [] List.nodup_nil) p
  · intro l p hp
    rw [addPeer_eq, if_pos hp]

/-- C7, on a sample: adding `P1` twice, then `P2`, then removing `P1` leaves
`P1` absent and `P2` once; and adding `P1` to `[P1, P2]` changes nothing. -/
theorem peer_list_has_no_duplicate_witness :
    applyPeerOps [] [.addPeer "P1", .addPeer "P1", .addPeer "P2"] = ["P1", "P2"] ∧
      (applyPeerOps [] [.addPeer "P1", .addPeer "P1", .addPeer "P2"]).count "P1" ≤ 1 ∧
      addPeer ["P1", "P2"] "P1" = ["P1", "P2"] :=
  ⟨by decide,
    peer_list_has_no_duplicate.1 [.addPeer "P1", .addPeer "P1", .addPeer "P2"] "P1",
    peer_list_has_no_duplicate.2 ["P1", "P2"] "P1" (by decide)⟩

/-- A route leaves the peer list as it is, or applies `addPeer` or
`removePeer` to it. -/
theorem route_mbgPeers {σ : Type} (pH : PolicyHandler σ) (req : Request) :
    (route pH req).2.mbgState.mbgPeers = pH.mbgState.mbgPeers ∨
      ∃ p, (route pH req).2.mbgState.mbgPeers = addPeer pH.mbgState.mbgPeers p ∨
        (route pH req).2.mbgState.mbgPeers = removePeer pH.mbgState.mbgPeers p := by
  cases req with
  | newConnectionRequest body => cases body <;> exact Or.inl rfl
  | addPeerRequest body encodeErr =>
    cases body with
    | error err => exact Or.inl rfl
    | ok attr =>
      simp only [route, addPeerRequest]
      split
      · exact Or.inl rfl
      · split
        · exact Or.inr ⟨attr.PeerMbg, Or.inl rfl⟩
        · exact Or.inl rfl
  | removePeerRequest body =>
    cases body with
    | error err => exact Or.inl rfl
    | ok attr => exact Or.inr ⟨attr.PeerMbg, Or.inr rfl⟩
  | newRemoteService body =>
    cases body with
    | error err => exact Or.inl rfl
    | ok attr =>
      simp only [route, newRemoteService]
      split <;> exact Or.inl rfl
  | removeRemoteServiceRequest body => cases body <;> exact Or.inl rfl
  | exposeRequest body => cases body <;> exact Or.inl rfl

/-- A route keeps a peer list without duplicates so. -/
theorem route_nodup {σ : Type} (pH : PolicyHandler σ) (req : Request)
    (h : pH.mbgState.mbgPeers.Nodup) : (route pH req).2.mbgState.mbgPeers.Nodup := by
  rcases route_mbgPeers pH req with h0 | ⟨p, h1 | h2⟩
  · rw [h0]; exact h
  · rw [h1]; exact addPeer_nodup _ p h
  · rw [h2]; exact removePeer_nodup _ p h

/-- In every reachable handler state the peer list has no duplicate. -/
theorem Reachable.nodup {σ : Type} {pH : PolicyHandler σ} (h : Reachable pH) :
    pH.mbgState.mbgPeers.Nodup := by
  induction h with
  | start pH h0 => rw [h0]; exact List.nodup_nil
  | route pH req _ ih => exact route_nodup pH req ih
  | acl pH ac _ ih => exact ih
  | lb pH lb _ ih => exact ih

/-- C8: a well-formed `RemovePeerRequest` for peer `p`, in any reachable
state, is answered 200; afterwards `p` is not in the peer list, every other
peer still is, and the load balancer state is `RemoveMbgFromServiceMap(p)` of
the one before. No agent runs and no rule is consulted: the access control
agent and the subscription table are left as they are, and the reply, the
peer list and the load balancer are the same whatever these two are. -/
theorem removePeerRequest_removes_peer {σ : Type} (pH : PolicyHandler σ)
    (hreach : Reachable pH) (requestAttr : AddPeerAttr) :
    (removePeerRequest pH (.ok requestAttr)).1 = HttpReply.okEmpty ∧
      requestAttr.PeerMbg ∉ (removePeerRequest pH (.ok requestAttr)).2.mbgState.mbgPeers ∧
      (∀ q, q ≠ requestAttr.PeerMbg → q ∈ pH.mbgState.mbgPeers →
        q ∈ (removePeerRequest pH (.ok requestAttr)).2.mbgState.mbgPeers) ∧
      (removePeerRequest pH (.ok requestAttr)).2.loadBalancer =
        { pH.loadBalancer with
          state := pH.loadBalancer.RemoveMbgFromServiceMap pH.loadBalancer.state
            requestAttr.PeerMbg } ∧
      (removePeerRequest pH (.ok requestAttr)).2.accessControl = pH.accessControl ∧
      (removePeerRequest pH (.ok requestAttr)).2.SubscriptionMap = pH.SubscriptionMap ∧
      ∀ (ac : AccessControl) (sm : String → List String),
        (removePeerRequest { pH with accessControl := ac, SubscriptionMap := sm }
            (.ok requestAttr)).1 = (removePeerRequest pH (.ok requestAttr)).1 ∧
          (removePeerRequest { pH with accessControl := ac, SubscriptionMap := sm }
            (.ok requestAttr)).2.mbgState =
            (removePeerRequest pH (.ok requestAttr)).2.mbgState ∧
          (removePeerRequest { pH with accessControl := ac, SubscriptionMap := sm }
            (.ok requestAttr)).2.loadBalancer =
            (removePeerRequest pH (.ok requestAttr)).2.loadBalancer := by
  have hnd := hreach.nodup
  refine ⟨rfl, ?_, ?_, rfl, rfl, rfl, fun _ _ => ⟨rfl, rfl, rfl⟩⟩
  · simp only [removePeerRequest, removePeer_eq_erase]
    intro hmem
    exact absurd rfl ((List.Nodup.mem_erase_iff hnd).mp hmem).1
  · intro q hq hmem
    simp only [removePeerRequest, removePeer_eq_erase]
    exact (List.mem_erase_of_ne hq).mpr hmem

/-- C8, on a sample: after `P2` and `P3` were added, removing `P2` leaves
`[P3]`. -/
theorem removePeerRequest_removes_peer_witness :
    ((removePeerRequest (serve (initEmpty sampleAccessControl)
        [.addPeerRequest (.ok { PeerMbg := "P2" }) false,
          .addPeerRequest (.ok { PeerMbg := "P3" }) false])
        (.ok { PeerMbg := "P2" })).2.mbgState.mbgPeers = ["P3"]) ∧
      "P2" ∉ (removePeerRequest (serve (initEmpty sampleAccessControl)
        [.addPeerRequest (.ok { PeerMbg := "P2" }) false,
          .addPeerRequest (.ok { PeerMbg := "P3" }) false])
        (.ok { PeerMbg := "P2" })).2.mbgState.mbgPeers :=
  ⟨by decide,
    (removePeerRequest_removes_peer
      (serve (initEmpty sampleAccessControl)
        [.addPeerRequest (.ok { PeerMbg := "P2" }) false,
          .addPeerRequest (.ok { PeerMbg := "P3" }) false])
      (Reachable.route _ _ (Reachable.route _ _ (Reachable.start _ rfl)))
      { PeerMbg := "P2" }).2.1⟩

/-! ## The service-provider map and the peer list -/

/-- Over the registry of section 4.3 no agent of `newConnectionRequest`
changes the service-provider map (the selector moves its cursor only). -/
theorem connAgent_serviceMap (pH : PolicyHandler RegistryState)
    (hlb : pH.loadBalancer = specLoadBalancer pH.loadBalancer.state)
    (req : ConnectionRequestAttr) (d : ConnDecision RegistryState) (agent : String) :
    (connAgent pH req d agent).lbState.ServiceMap = d.lbState.ServiceMap := by
  unfold connAgent
  split
  · split <;> rfl
  · split
    · split
      · split
        · rfl
        · rw [hlb]
          simp only [specLoadBalancer, RegistryState.LookupWith]
          split <;> rfl
      · rfl
    · rfl

theorem foldl_connAgent_serviceMap (pH : PolicyHandler RegistryState)
    (hlb : pH.loadBalancer = specLoadBalancer pH.loadBalancer.state)
    (req : ConnectionRequestAttr) (agents : List String) (d : ConnDecision RegistryState) :
    (agents.foldl (connAgent pH req) d).lbState.ServiceMap = d.lbState.ServiceMap := by
  induction agents generalizing d with
  | nil => rfl
  | cons a rest ih => rw [List.foldl_cons, ih, connAgent_serviceMap pH hlb]

/-- Membership in the peer list after `addPeer`. -/
theorem mem_addPeer (l : List String) (p q : String) : q ∈ addPeer l p ↔ q ∈ l ∨ q = p := by
  rw [addPeer_eq]
  by_cases hp : p ∈ l
  · simp only [hp, if_true]
    constructor
    · exact Or.inl
    · rintro (h | h)
      · exact h
      · rw [h]; exact hp
  · simp [hp]

/-- A load balancer with the methods of section 4.3 keeps them when its
state is replaced. -/
theorem specLoadBalancer_with_state (lb : LoadBalancer RegistryState)
    (h : lb = specLoadBalancer lb.state) (st : RegistryState) :
    { lb with state := st } = specLoadBalancer st := by
  obtain ⟨s0, g, l, a, r, d⟩ := lb
  simp only [specLoadBalancer, LoadBalancer.mk.injEq, true_and] at h ⊢
  exact h

/-- One request keeps the provider invariant, together with what its proof
carries along, the load balancer methods of section 4.3. A well-formed `NewRemoteService` request has to name a peer of
the peer list. -/
theorem route_providersArePeers (pH : PolicyHandler RegistryState) (req : Request)
    (hlb : pH.loadBalancer = specLoadBalancer pH.loadBalancer.state)
    (hinv : ProvidersArePeers pH)
    (hguard : ∀ requestAttr, req = .newRemoteService (.ok requestAttr) →
      requestAttr.Mbg ∈ pH.mbgState.mbgPeers) :
    (route pH req).2.loadBalancer = specLoadBalancer (route pH req).2.loadBalancer.state ∧
      ProvidersArePeers (route pH req).2 := by
  cases req with
  | newConnectionRequest body =>
    cases body with
    | error err => exact ⟨hlb, hinv⟩
    | ok attr =>
      refine ⟨?_, ?_⟩
      · exact specLoadBalancer_with_state _ hlb _
      · intro service providers hs q hq
        simp only [route, newConnectionRequest, connDecide] at hs
        rw [foldl_connAgent_serviceMap pH hlb] at hs
        exact hinv service providers hs q hq
  | addPeerRequest body encodeErr =>
    cases body with
    | error err => exact ⟨hlb, hinv⟩
    | ok attr =>
      simp only [route, addPeerRequest]
      split
      · exact ⟨hlb, hinv⟩
      · split
        · refine ⟨hlb, ?_⟩
          intro service providers hs q hq
          exact (mem_addPeer _ _ _).mpr (Or.inl (hinv service providers hs q hq))
        · exact ⟨hlb, hinv⟩
  | removePeerRequest body =>
    cases body with
    | error err => exact ⟨hlb, hinv⟩
    | ok attr =>
      refine ⟨?_, ?_⟩
      · exact specLoadBalancer_with_state _ hlb _
      · intro service providers hs q hq
        simp only [route, removePeerRequest, removePeer_eq_erase] at hs ⊢
        rw [hlb] at hs
        simp only [specLoadBalancer, RegistryState.RemoveMbgFromServiceMap,
          Option.map_eq_some'] at hs
        obtain ⟨l, hl, hfl⟩ := hs
        rw [← hfl, List.mem_filter] at hq
        have hne : q ≠ attr.PeerMbg := by simpa using hq.2
        exact (List.mem_erase_of_ne hne).mpr (hinv service l hl q hq.1)
  | newRemoteService body =>
    cases body with
    | error err => exact ⟨hlb, hinv⟩
    | ok attr =>
      have hpeer := hguard attr rfl
      simp only [route, newRemoteService]
      split
      · refine ⟨?_, ?_⟩
        · exact specLoadBalancer_with_state _ hlb _
        · intro service providers hs q hq
          simp only at hs ⊢
          rw [hlb] at hs
          simp only [specLoadBalancer, RegistryState.AddToServiceMap] at hs
          by_cases hk : service = attr.Service
          · simp only [hk, if_true] at hs
            cases hm : pH.loadBalancer.state.ServiceMap attr.Service with
            | none =>
              simp only [hm, Option.some.injEq] at hs
              rw [← hs] at hq
              rw [List.mem_singleton.mp hq]
              exact hpeer
            | some l =>
              simp only [hm] at hs
              by_cases hin : attr.Mbg ∈ l
              · simp only [hin, if_true, Option.some.injEq] at hs
                rw [← hs] at hq
                exact hinv attr.Service l hm q hq
              · simp only [hin, if_false, Option.some.injEq] at hs
                rw [← hs, List.mem_append, List.mem_singleton] at hq
                rcases hq with hq | hq
                · exact hinv attr.Service l hm q hq
                · rw [hq]; exact hpeer
          · simp only [hk, if_false] at hs
            exact hinv service providers hs q hq
      · exact ⟨hlb, hinv⟩
  | removeRemoteServiceRequest body =>
    cases body with
    | error err => exact ⟨hlb, hinv⟩
    | ok attr =>
      refine ⟨?_, ?_⟩
      · exact specLoadBalancer_with_state _ hlb _
      · intro service providers hs q hq
        simp only [route, removeRemoteServiceRequest] at hs ⊢
        rw [hlb] at hs
        simp only [specLoadBalancer, RegistryState.RemoveDestService] at hs
        by_cases hk : service = attr.Service
        · simp only [hk, if_true, Option.map_eq_some'] at hs
          obtain ⟨l, hl, hfl⟩ := hs
          rw [← hfl, List.mem_filter] at hq
          exact hinv attr.Service l hl q hq.1
        · simp only [hk, if_false] at hs
          exact hinv service providers hs q hq
  | exposeRequest body =>
    cases body with
    | error err => exact ⟨hlb, hinv⟩
    | ok attr => exact ⟨hlb, hinv⟩

/-- Along a sequence of requests whose `NewRemoteService` requests name
peers of the peer list, the provider invariant is kept. -/
theorem serve_providersArePeers (reqs : List Request) (pH : PolicyHandler RegistryState)
    (hlb : pH.loadBalancer = specLoadBalancer pH.loadBalancer.state)
    (hinv : ProvidersArePeers pH) (hann : AnnouncedByPeers pH reqs) :
    ProvidersArePeers (serve pH reqs) := by
  induction reqs generalizing pH with
  | nil => exact hinv
  | cons req rest ih =>
    have hstep : (∀ requestAttr, req = .newRemoteService (.ok requestAttr) →
        requestAttr.Mbg ∈ pH.mbgState.mbgPeers) ∧ AnnouncedByPeers (route pH req).2 rest := by
      cases req with
      | newRemoteService body =>
        cases body with
        | error err =>
          simp only [AnnouncedByPeers] at hann
          exact ⟨fun _ h => by simp at h, hann⟩
        | ok attr =>
          simp only [AnnouncedByPeers] at hann
          refine ⟨?_, hann.2⟩
          intro requestAttr h
          simp only [Request.newRemoteService.injEq, Except.ok.injEq] at h
          rw [← h]
          exact hann.1
      | newConnectionRequest body =>
        simp only [AnnouncedByPeers] at hann
        exact ⟨fun _ h => by simp at h, hann⟩
      | addPeerRequest body encodeErr =>
        simp only [AnnouncedByPeers] at hann
        exact ⟨fun _ h => by simp at h, hann⟩
      | removePeerRequest body =>
        simp only [AnnouncedByPeers] at hann
        exact ⟨fun _ h => by simp at h, hann⟩
      | removeRemoteServiceRequest body =>
        simp only [AnnouncedByPeers] at hann
        exact ⟨fun _ h => by simp at h, hann⟩
      | exposeRequest body =>
        simp only [AnnouncedByPeers] at hann
        exact ⟨fun _ h => by simp at h, hann⟩
    have hnext := route_providersArePeers pH req hlb hinv hstep.1
    exact ih (route pH req).2 hnext.1 hnext.2 hstep.2

/-- C5, as stated, fails: from the empty initial state the one event
`NewRemoteService(svc, P2)` registers `P2` as a provider of `svc` while the
peer list is still empty. -/
theorem providers_are_peers_counterexample :
    (serve (initEmpty sampleAccessControl)
        [.newRemoteService (.ok { Service := "svc", Mbg := "P2" })]).loadBalancer.state.ServiceMap
        "svc" = some ["P2"] ∧
      (serve (initEmpty sampleAccessControl)
        [.newRemoteService (.ok { Service := "svc", Mbg := "P2" })]).mbgState.mbgPeers = [] ∧
      ¬ ProvidersArePeers (serve (initEmpty sampleAccessControl)
        [.newRemoteService (.ok { Service := "svc", Mbg := "P2" })]) := by
  refine ⟨by decide, by decide, ?_⟩
  intro h
  have hmem := h "svc" ["P2"] (by decide) "P2" (by decide)
  exact absurd hmem (by decide)

/-- C5, amended: in every state reached from the empty initial state by a
sequence of requests in which each well-formed `NewRemoteService` request
names a peer that is in the peer list when it is served, every peer that the
service-provider map lists for some service is in the peer list. -/
theorem providers_are_peers_when_announced_by_peers (accessControl : AccessControl)
    (reqs : List Request) (hann : AnnouncedByPeers (initEmpty accessControl) reqs) :
    ProvidersArePeers (serve (initEmpty accessControl) reqs) := by
  apply serve_providersArePeers reqs (initEmpty accessControl) rfl _ hann
  intro service providers hs
  simp [initEmpty, init, specLoadBalancer, RegistryState.empty] at hs

/-- C5, amended, on a sample: `P2` joins, announces `svc`, `P3` joins and
announces `svc`, then `P2` leaves; `svc` is left with the provider `P3`. -/
theorem providers_are_peers_when_announced_by_peers_witness :
    (serve (initEmpty sampleAccessControl)
        [.addPeerRequest (.ok { PeerMbg := "P2" }) false,
          .newRemoteService (.ok { Service := "svc", Mbg := "P2" }),
          .addPeerRequest (.ok { PeerMbg := "P3" }) false,
          .newRemoteService (.ok { Service := "svc", Mbg := "P3" }),
          .removePeerRequest (.ok { PeerMbg := "P2" })]).loadBalancer.state.ServiceMap "svc" =
        some ["P3"] ∧
      ProvidersArePeers (serve (initEmpty sampleAccessControl)
        [.addPeerRequest (.ok { PeerMbg := "P2" }) false,
          .newRemoteService (.ok { Service := "svc", Mbg := "P2" }),
          .addPeerRequest (.ok { PeerMbg := "P3" }) false,
          .newRemoteService (.ok { Service := "svc", Mbg := "P3" }),
          .removePeerRequest (.ok { PeerMbg := "P2" })]) :=
  ⟨by decide,
    providers_are_peers_when_announced_by_peers sampleAccessControl
      [.addPeerRequest (.ok { PeerMbg := "P2" }) false,
        .newRemoteService (.ok { Service := "svc", Mbg := "P2" }),
        .addPeerRequest (.ok { PeerMbg := "P3" }) false,
        .newRemoteService (.ok { Service := "svc", Mbg := "P3" }),
        .removePeerRequest (.ok { PeerMbg := "P2" })]
      (by
        simp only [AnnouncedByPeers]
        exact ⟨by decide, by decide, trivial⟩)⟩

/-! ## Decision-driven state updates -/

/-- Handler `addPeerRequest` on a well-formed request: the response carries
the aggregated action; on `Deny` the handler state is unchanged; otherwise,
if the response was encoded without error, the peer is in the peer list
afterwards and nothing else has changed. -/
theorem addPeerRequest_update {σ : Type} (pH : PolicyHandler σ) (requestAttr : AddPeerAttr)
    (encodeErr : Bool) :
    (addPeerRequest pH (.ok requestAttr) encodeErr).1 =
        HttpReply.okJson
          { Action := addPeerDecide pH requestAttr (pH.SubscriptionMap AddPeerRequest) } ∧
      (addPeerDecide pH requestAttr (pH.SubscriptionMap AddPeerRequest) = Deny →
        (addPeerRequest pH (.ok requestAttr) encodeErr).2 = pH) ∧
      (addPeerDecide pH requestAttr (pH.SubscriptionMap AddPeerRequest) ≠ Deny →
        encodeErr = false →
        (addPeerRequest pH (.ok requestAttr) encodeErr).2 =
            { pH with mbgState :=
                { mbgPeers := addPeer pH.mbgState.mbgPeers requestAttr.PeerMbg } } ∧
          requestAttr.PeerMbg ∈
            (addPeerRequest pH (.ok requestAttr) encodeErr).2.mbgState.mbgPeers) := by
  refine ⟨?_, ?_, ?_⟩
  · simp only [addPeerRequest]
    split
    · rfl
    · split <;> rfl
  · intro hdeny
    simp only [addPeerRequest, hdeny, ne_eq, not_true_eq_false, if_false, ite_self]
  · intro hne henc
    simp only [addPeerRequest, henc, Bool.false_eq_true, if_false, hne, ne_eq,
      not_false_eq_true, if_true, true_and]
    exact (mem_addPeer _ _ _).mpr (Or.inr rfl)

/-- Handler `newRemoteService` on a well-formed request: the response carries
the aggregated action; on `Deny` the handler state is unchanged; otherwise
`AddToServiceMap(service, peer)` has been applied to the load balancer and
nothing else has changed. -/
theorem newRemoteService_update {σ : Type} (pH : PolicyHandler σ)
    (requestAttr : NewRemoteServiceAttr) :
    (newRemoteService pH (.ok requestAttr)).1 =
        HttpReply.okJson
          { Action := newRemoteServiceDecide pH requestAttr
              (pH.SubscriptionMap NewRemoteService) } ∧
      (newRemoteServiceDecide pH requestAttr (pH.SubscriptionMap NewRemoteService) = Deny →
        (newRemoteService pH (.ok requestAttr)).2 = pH) ∧
      (newRemoteServiceDecide pH requestAttr (pH.SubscriptionMap NewRemoteService) ≠ Deny →
        (newRemoteService pH (.ok requestAttr)).2 =
          { pH with loadBalancer := { pH.loadBalancer with
              state := pH.loadBalancer.AddToServiceMap pH.loadBalancer.state
                requestAttr.Service requestAttr.Mbg } }) := by
  refine ⟨?_, ?_, ?_⟩
  · simp only [newRemoteService]
    split <;> rfl
  · intro hdeny
    simp only [newRemoteService, hdeny, ne_eq, not_true_eq_false, if_false]
  · intro hne
    simp only [newRemoteService, hne, ne_eq, not_false_eq_true, if_true]

/-- C6, the run on which the code leaves the claim: `AddPeerRequest` for
`P2` is decided `Allow`, yet when `Encode` on the response writer fails the
handler returns before the update and `P2` is not in the peer list; with a
successful `Encode` it is. Handler `newRemoteService` has no such return. -/
theorem addPeerRequest_encode_error_skips_update :
    (addPeerRequest sampleHandler (.ok { PeerMbg := "P2" }) true).1.body =
        some { Action := Allow } ∧
      (addPeerRequest sampleHandler (.ok { PeerMbg := "P2" }) true).2.mbgState.mbgPeers = [] ∧
      "P2" ∉ (addPeerRequest sampleHandler (.ok { PeerMbg := "P2" }) true).2.mbgState.mbgPeers ∧
      (addPeerRequest sampleHandler (.ok { PeerMbg := "P2" }) false).2.mbgState.mbgPeers =
        ["P2"] :=
  ⟨by decide, by decide, by decide, by decide⟩

/-! ## Unrecognized agent names -/

/-- A fold that skips the entries a filter drops is the fold over the
filtered list. -/
theorem foldl_filter_of_skip {α : Type} (f : α → String → α) (keep : String → Bool)
    (hskip : ∀ d a, keep a = false → f d a = d) (l : List String) (d : α) :
    (l.filter keep).foldl f d = l.foldl f d := by
  induction l generalizing d with
  | nil => rfl
  | cons a rest ih =>
    by_cases hk : keep a = true
    · rw [List.filter_cons_of_pos hk, List.foldl_cons, List.foldl_cons, ih]
    · rw [List.filter_cons_of_neg hk, List.foldl_cons, ih,
        hskip d a (by simpa using hk)]

/-- C9: for each of the six routes, every request and every subscription list
`L` of its event, the handler run with `L` and the handler run with `L`
filtered by any filter that keeps the agent names its `switch` recognizes
(so with unrecognized names removed) give the same reply and the same
resulting state, the subscription table itself apart. -/
theorem route_skips_unrecognized_agents {σ : Type} (pH : PolicyHandler σ) (req : Request)
    (keep : String → Bool) (hkeep : ∀ a, req.recognized a = true → keep a = true)
    (sm : String → List String)
    (hsm : sm req.event = (pH.SubscriptionMap req.event).filter keep) :
    route { pH with SubscriptionMap := sm } req =
      ((route pH req).1, { (route pH req).2 with SubscriptionMap := sm }) := by
  have hdrop : ∀ a, keep a = false → req.recognized a = false := by
    intro a ha
    by_contra hr
    rw [Bool.not_eq_false] at hr
    rw [hkeep a hr] at ha
    exact absurd ha (by decide)
  cases req with
  | newConnectionRequest body =>
    cases body with
    | error err => rfl
    | ok attr =>
      have hfold : connDecide { pH with SubscriptionMap := sm } attr (sm NewConnectionRequest) =
          connDecide pH attr (pH.SubscriptionMap NewConnectionRequest) := by
        have hsm2 : sm NewConnectionRequest =
            (pH.SubscriptionMap NewConnectionRequest).filter keep := hsm
        rw [hsm2]
        exact foldl_filter_of_skip (connAgent pH attr) keep (by
          intro d a ha
          have hr := hdrop a ha
          simp only [Request.recognized, Bool.or_eq_false_iff, decide_eq_false_iff_not] at hr
          simp only [connAgent, hr.1, hr.2, if_false]) _ _
      simp only [route, newConnectionRequest, hfold]
  | addPeerRequest body encodeErr =>
    cases body with
    | error err => rfl
    | ok attr =>
      have hfold : addPeerDecide { pH with SubscriptionMap := sm } attr (sm AddPeerRequest) =
          addPeerDecide pH attr (pH.SubscriptionMap AddPeerRequest) := by
        have hsm2 : sm AddPeerRequest = (pH.SubscriptionMap AddPeerRequest).filter keep := hsm
        rw [hsm2]
        exact foldl_filter_of_skip _ keep (by
          intro d a ha
          have hr := hdrop a ha
          simp only [Request.recognized, decide_eq_false_iff_not] at hr
          simp only [hr, if_false]) _ _
      simp only [route, addPeerRequest, hfold]
      split
      · rfl
      · split <;> rfl
  | removePeerRequest body => cases body <;> rfl
  | newRemoteService body =>
    cases body with
    | error err => rfl
    | ok attr =>
      have hfold : newRemoteServiceDecide { pH with SubscriptionMap := sm } attr
            (sm NewRemoteService) =
          newRemoteServiceDecide pH attr (pH.SubscriptionMap NewRemoteService) := by
        have hsm2 : sm NewRemoteService = (pH.SubscriptionMap NewRemoteService).filter keep :=
          hsm
        rw [hsm2]
        exact foldl_filter_of_skip _ keep (by
          intro d a ha
          have hr := hdrop a ha
          simp only [Request.recognized, decide_eq_false_iff_not] at hr
          simp only [hr, if_false]) _ _
      simp only [route, newRemoteService, hfold]
      split <;> rfl
  | removeRemoteServiceRequest body => cases body <;> rfl
  | exposeRequest body =>
    cases body with
    | error err => rfl
    | ok attr =>
      have hfold : exposeDecide { pH with SubscriptionMap := sm } attr (sm ExposeRequest) =
          exposeDecide pH attr (pH.SubscriptionMap ExposeRequest) := by
        have hsm2 : sm ExposeRequest = (pH.SubscriptionMap ExposeRequest).filter keep := hsm
        rw [hsm2]
        exact foldl_filter_of_skip _ keep (by
          intro d a ha
          have hr := hdrop a ha
          simp only [Request.recognized, decide_eq_false_iff_not] at hr
          simp only [hr, if_false]) _ _
      simp only [route, exposeRequest, hfold]

/-- C9, on a sample: the subscription list
`[Bogus, AccessControl, Other, LoadBalancer]` serves the outgoing request as
`[AccessControl, LoadBalancer]` does, with `Allow` and target `P2`. -/
theorem route_skips_unrecognized_agents_witness :
    (newConnectionRequest (sampleHandlerWith ["Bogus", "AccessControl", "Other", "LoadBalancer"])
        (.ok sampleOutgoing)).1.body =
        some { Action := Allow, TargetMbg := "P2", BitRate := 0 } ∧
      route { sampleHandlerWith ["Bogus", "AccessControl", "Other", "LoadBalancer"] with
          SubscriptionMap := fun _ => ["AccessControl", "LoadBalancer"] }
        (.newConnectionRequest (.ok sampleOutgoing)) =
        ((route (sampleHandlerWith ["Bogus", "AccessControl", "Other", "LoadBalancer"])
            (.newConnectionRequest (.ok sampleOutgoing))).1,
          { (route (sampleHandlerWith ["Bogus", "AccessControl", "Other", "LoadBalancer"])
              (.newConnectionRequest (.ok sampleOutgoing))).2 with
            SubscriptionMap := fun _ => ["AccessControl", "LoadBalancer"] }) :=
  ⟨by decide,
    route_skips_unrecognized_agents
      (sampleHandlerWith ["Bogus", "AccessControl", "Other", "LoadBalancer"])
      (.newConnectionRequest (.ok sampleOutgoing))
      (Request.recognized (.newConnectionRequest (.ok sampleOutgoing)))
      (fun _ h => h)
      (fun _ => ["AccessControl", "LoadBalancer"])
      (by decide)⟩

end policyEngine

namespace eventManager

/-! ## The event gateway -/

/-- C10: with an empty `PolicyDispatcherTarget`, for every request and
whatever the wire would do, the gateway makes no HTTP post and returns a nil
error with the fixed default: `Allow` with empty target and bitrate 0 for a
connection request, `Allow` for a peer and for a remote service, `AllowAll`
for an expose request. -/
theorem gateway_defaults_without_dispatcher (m : EventManager)
    (h : m.PolicyDispatcherTarget = "") :
    (∀ (w : Wire ConnectionRequestAttr ConnectionRequestResp) (attr : ConnectionRequestAttr),
        m.RaiseNewConnectionRequestEvent w attr =
          { resp := { Action := Allow, TargetMbg := "", BitRate := 0 }, err := none,
            posts := [] }) ∧
      (∀ (w : Wire AddPeerAttr AddPeerResp) (attr : AddPeerAttr),
        m.RaiseAddPeerEvent w attr =
          { resp := { Action := Allow }, err := none, posts := [] }) ∧
      (∀ (w : Wire NewRemoteServiceAttr NewRemoteServiceResp) (attr : NewRemoteServiceAttr),
        m.RaiseNewRemoteServiceEvent w attr =
          { resp := { Action := Allow }, err := none, posts := [] }) ∧
      (∀ (w : Wire ExposeRequestAttr ExposeRequestResp) (attr : ExposeRequestAttr),
        m.RaiseExposeRequestEvent w attr =
          { resp := { Action := AllowAll, TargetMbgs := [] }, err := none, posts := [] }) := by
  refine ⟨?_, ?_, ?_, ?_⟩
  · intro w attr
    simp only [EventManager.RaiseNewConnectionRequestEvent, h, ne_eq, not_true_eq_false, if_false]
  · intro w attr
    simp only [EventManager.RaiseAddPeerEvent, h, ne_eq, not_true_eq_false, if_false]
  · intro w attr
    simp only [EventManager.RaiseNewRemoteServiceEvent, h, ne_eq, not_true_eq_false, if_false]
  · intro w attr
    simp only [EventManager.RaiseExposeRequestEvent, h, ne_eq, not_true_eq_false, if_false]

/-- C10, on a sample: with no dispatcher assigned a peer request is allowed
without a post, over a wire on which every post would fail. -/
theorem gateway_defaults_without_dispatcher_witness :
    sampleUnassigned.PolicyDispatcherTarget = "" ∧
      sampleUnassigned.RaiseAddPeerEvent (sampleDeadWire AddPeerAttr AddPeerResp)
          { PeerMbg := "P1" } =
        { resp := { Action := Allow }, err := none, posts := [] } ∧
      sampleUnassigned.RaiseExposeRequestEvent
          (sampleDeadWire ExposeRequestAttr ExposeRequestResp) { Service := "svc" } =
        { resp := { Action := AllowAll, TargetMbgs := [] }, err := none, posts := [] } :=
  ⟨rfl,
    (gateway_defaults_without_dispatcher sampleUnassigned rfl).2.1
      (sampleDeadWire AddPeerAttr AddPeerResp) { PeerMbg := "P1" },
    (gateway_defaults_without_dispatcher sampleUnassigned rfl).2.2.2
      (sampleDeadWire ExposeRequestAttr ExposeRequestResp) { Service := "svc" }⟩

end eventManager

namespace eventManager

/-! ## Transport and decode failures -/

/-- Method `RaiseNewRemoteServiceEvent` with a dispatcher assigned: a failed
post or an undecodable body gives a non-nil error with `Allow`. -/
theorem RaiseNewRemoteServiceEvent_failure (m : EventManager)
    (w : Wire NewRemoteServiceAttr NewRemoteServiceResp) (attr : NewRemoteServiceAttr)
    (jsonReq : String) (h : m.PolicyDispatcherTarget ≠ "") (hj : w.Marshal attr = .ok jsonReq)
    (hfail : (w.HttpPost (m.PolicyDispatcherTarget ++ "/" ++ NewRemoteService) jsonReq).2 ≠ none ∨
      ∃ e, w.Unmarshal (w.HttpPost (m.PolicyDispatcherTarget ++ "/" ++ NewRemoteService)
        jsonReq).1 = .error e) :
    (m.RaiseNewRemoteServiceEvent w attr).err ≠ none ∧
      (m.RaiseNewRemoteServiceEvent w attr).resp.Action = Allow := by
  simp only [EventManager.RaiseNewRemoteServiceEvent, h, ne_eq, not_false_eq_true, if_true, hj]
  rcases hp : w.HttpPost (m.PolicyDispatcherTarget ++ "/" ++ NewRemoteService) jsonReq with
    ⟨resp, _ | e⟩
  · rw [hp] at hfail
    rcases hfail with hne | ⟨e, he⟩
    · exact absurd rfl hne
    · simp only at he
      simp [he]
  · simp

/-- Method `RaiseExposeRequestEvent` with a dispatcher assigned: a failed post
or an undecodable body gives a non-nil error with `Allow`. -/
theorem RaiseExposeRequestEvent_failure (m : EventManager)
    (w : Wire ExposeRequestAttr ExposeRequestResp) (attr : ExposeRequestAttr)
    (jsonReq : String) (h : m.PolicyDispatcherTarget ≠ "") (hj : w.Marshal attr = .ok jsonReq)
    (hfail : (w.HttpPost (m.PolicyDispatcherTarget ++ "/" ++ ExposeRequest) jsonReq).2 ≠ none ∨
      ∃ e, w.Unmarshal (w.HttpPost (m.PolicyDispatcherTarget ++ "/" ++ ExposeRequest)
        jsonReq).1 = .error e) :
    (m.RaiseExposeRequestEvent w attr).err ≠ none ∧
      (m.RaiseExposeRequestEvent w attr).resp.Action = Allow := by
  simp only [EventManager.RaiseExposeRequestEvent, h, ne_eq, not_false_eq_true, if_true, hj]
  rcases hp : w.HttpPost (m.PolicyDispatcherTarget ++ "/" ++ ExposeRequest) jsonReq with
    ⟨resp, _ | e⟩
  · rw [hp] at hfail
    rcases hfail with hne | ⟨e, he⟩
    · exact absurd rfl hne
    · simp only at he
      simp [he]
  · simp

/-- Method `RaiseAddPeerEvent` with a dispatcher assigned: a failed post or an
undecodable body gives a non-nil error with `Allow`. -/
theorem RaiseAddPeerEvent_failure (m : EventManager)
    (w : Wire AddPeerAttr AddPeerResp) (attr : AddPeerAttr)
    (jsonReq : String) (h : m.PolicyDispatcherTarget ≠ "") (hj : w.Marshal attr = .ok jsonReq)
    (hfail : (w.HttpPost (m.PolicyDispatcherTarget ++ "/" ++ AddPeerRequest) jsonReq).2 ≠ none ∨
      ∃ e, w.Unmarshal (w.HttpPost (m.PolicyDispatcherTarget ++ "/" ++ AddPeerRequest)
        jsonReq).1 = .error e) :
    (m.RaiseAddPeerEvent w attr).err ≠ none ∧
      (m.RaiseAddPeerEvent w attr).resp.Action = Allow := by
  simp only [EventManager.RaiseAddPeerEvent, h, ne_eq, not_false_eq_true, if_true, hj]
  rcases hp : w.HttpPost (m.PolicyDispatcherTarget ++ "/" ++ AddPeerRequest) jsonReq with
    ⟨resp, _ | e⟩
  · rw [hp] at hfail
    rcases hfail with hne | ⟨e, he⟩
    · exact absurd rfl hne
    · simp only at he
      simp [he]
  · simp

/-- Method `RaiseNewConnectionRequestEvent` with a dispatcher assigned: an
undecodable body gives a non-nil error with `Allow`; the error of the post
itself plays no part. -/
theorem RaiseNewConnectionRequestEvent_decode_failure (m : EventManager)
    (w : Wire ConnectionRequestAttr ConnectionRequestResp) (attr : ConnectionRequestAttr)
    (jsonReq : String) (e : String) (h : m.PolicyDispatcherTarget ≠ "")
    (hj : w.Marshal attr = .ok jsonReq)
    (hfail : w.Unmarshal (w.HttpPost (m.PolicyDispatcherTarget ++ "/" ++ NewConnectionRequest)
        jsonReq).1 = .error e) :
    (m.RaiseNewConnectionRequestEvent w attr).err ≠ none ∧
      (m.RaiseNewConnectionRequestEvent w attr).resp.Action = Allow := by
  simp [EventManager.RaiseNewConnectionRequestEvent, h, hj, hfail]

/-- Method `RaiseNewConnectionRequestEvent` with a dispatcher assigned returns
the decoded body with a nil error whenever the body decodes, whether the post
returned an error or not. -/
theorem RaiseNewConnectionRequestEvent_decoded (m : EventManager)
    (w : Wire ConnectionRequestAttr ConnectionRequestResp) (attr : ConnectionRequestAttr)
    (jsonReq : String) (r : ConnectionRequestResp) (h : m.PolicyDispatcherTarget ≠ "")
    (hj : w.Marshal attr = .ok jsonReq)
    (hdec : w.Unmarshal (w.HttpPost (m.PolicyDispatcherTarget ++ "/" ++ NewConnectionRequest)
        jsonReq).1 = .ok r) :
    (m.RaiseNewConnectionRequestEvent w attr).err = none ∧
      (m.RaiseNewConnectionRequestEvent w attr).resp = r := by
  simp [EventManager.RaiseNewConnectionRequestEvent, h, hj, hdec]

/-- C11, the run on which the code leaves the claim: with a dispatcher
assigned, the post of `RaiseNewConnectionRequestEvent` returns an error
together with a body that decodes to `Deny`; the method returns a nil error
and `Deny`, while `RaiseAddPeerEvent` on the same wire returns the error
with `Allow`. -/
theorem RaiseNewConnectionRequestEvent_drops_post_error :
    sampleAssigned.PolicyDispatcherTarget ≠ "" ∧
      ((sampleStaleWire ConnectionRequestAttr ConnectionRequestResp
          { Action := Deny, TargetMbg := "", BitRate := 0 }).HttpPost
        (sampleAssigned.PolicyDispatcherTarget ++ "/" ++ NewConnectionRequest) "request").2 =
        some "502 Bad Gateway" ∧
      (sampleAssigned.RaiseNewConnectionRequestEvent
        (sampleStaleWire ConnectionRequestAttr ConnectionRequestResp
          { Action := Deny, TargetMbg := "", BitRate := 0 }) sampleConnectionRequest).err = none ∧
      (sampleAssigned.RaiseNewConnectionRequestEvent
        (sampleStaleWire ConnectionRequestAttr ConnectionRequestResp
          { Action := Deny, TargetMbg := "", BitRate := 0 }) sampleConnectionRequest).resp.Action =
        Deny ∧
      (sampleAssigned.RaiseAddPeerEvent
        (sampleStaleWire AddPeerAttr AddPeerResp { Action := Deny }) { PeerMbg := "P2" }).err =
        some "502 Bad Gateway" ∧
      (sampleAssigned.RaiseAddPeerEvent
        (sampleStaleWire AddPeerAttr AddPeerResp { Action := Deny })
        { PeerMbg := "P2" }).resp.Action = Allow :=
  ⟨by decide, rfl, by decide, by decide, by decide, by decide⟩

end eventManager

namespace eventManager

/-! ## Fire-and-forget events -/

/-- C12, as stated, fails: with a metrics manager assigned and a request that
marshals, `RaiseConnectionStatusEvent` over a wire whose post fails returns
the error of the post. -/
theorem RaiseConnectionStatusEvent_returns_post_error :
    sampleAssigned.MetricsManagerTarget ≠ "" ∧
      (sampleDeadWire ConnectionStatusAttr Unit).Marshal sampleConnectionStatus = .ok "{}" ∧
      (sampleAssigned.RaiseConnectionStatusEvent (sampleDeadWire ConnectionStatusAttr Unit)
        sampleConnectionStatus).err = some "connection refused" :=
  ⟨by decide, rfl, by decide⟩

/-- C12, amended: `RaiseRemovePeerEvent` and `RaiseRemoveRemoteServiceEvent`
return a nil error whenever the request marshals, whatever the post does;
`RaiseConnectionStatusEvent`, with a metrics manager assigned, returns the
error of the post to the caller. Each makes the one post. -/
theorem fire_and_forget_errors (m : EventManager) :
    (∀ (w : Wire RemovePeerAttr Unit) (attr : RemovePeerAttr) (jsonReq : String),
        m.PolicyDispatcherTarget ≠ "" → w.Marshal attr = .ok jsonReq →
        (m.RaiseRemovePeerEvent w attr).err = none ∧
          (m.RaiseRemovePeerEvent w attr).posts =
            [(m.PolicyDispatcherTarget ++ "/" ++ RemovePeerRequest, jsonReq)]) ∧
      (∀ (w : Wire RemoveRemoteServiceAttr Unit) (attr : RemoveRemoteServiceAttr)
          (jsonReq : String),
        m.PolicyDispatcherTarget ≠ "" → w.Marshal attr = .ok jsonReq →
        (m.RaiseRemoveRemoteServiceEvent w attr).err = none ∧
          (m.RaiseRemoveRemoteServiceEvent w attr).posts =
            [(m.PolicyDispatcherTarget ++ "/" ++ RemoveRemoteService, jsonReq)]) ∧
      (∀ (w : Wire ConnectionStatusAttr Unit) (attr : ConnectionStatusAttr) (jsonReq : String),
        m.MetricsManagerTarget ≠ "" → w.Marshal attr = .ok jsonReq →
        (m.RaiseConnectionStatusEvent w attr).err =
            (w.HttpPost (m.MetricsManagerTarget ++ "/" ++ ConnectionStatus) jsonReq).2 ∧
          (m.RaiseConnectionStatusEvent w attr).posts =
            [(m.MetricsManagerTarget ++ "/" ++ ConnectionStatus, jsonReq)]) := by
  refine ⟨?_, ?_, ?_⟩
  · intro w attr jsonReq h hj
    simp [EventManager.RaiseRemovePeerEvent, h, hj]
  · intro w attr jsonReq h hj
    simp [EventManager.RaiseRemoveRemoteServiceEvent, h, hj]
  · intro w attr jsonReq h hj
    simp [EventManager.RaiseConnectionStatusEvent, h, hj]

/-- C12, amended, on a sample: over a wire whose post fails, the removal of
peer `P2` returns a nil error after its one post. -/
theorem fire_and_forget_errors_witness :
    sampleAssigned.PolicyDispatcherTarget ≠ "" ∧
      (sampleAssigned.RaiseRemovePeerEvent (sampleDeadWire RemovePeerAttr Unit)
          { PeerMbg := "P2" }).err = none ∧
      (sampleAssigned.RaiseRemovePeerEvent (sampleDeadWire RemovePeerAttr Unit)
          { PeerMbg := "P2" }).posts =
        [(sampleAssigned.PolicyDispatcherTarget ++ "/" ++ RemovePeerRequest, "{}")] :=
  ⟨by decide,
    (fire_and_forget_errors sampleAssigned).1 (sampleDeadWire RemovePeerAttr Unit)
      { PeerMbg := "P2" } "{}" (by decide) rfl⟩

end eventManager

namespace policyEngine

open eventManager

/-! ## Malformed requests -/

/-- C13: each of the six handlers, when decoding the request body fails with
error text `err`, answers 400 with that text and no JSON body, and returns the
handler state it was given: no decision is computed, whatever the agents and
the subscription table are. -/
theorem decode_error_is_bad_request {σ : Type} (pH : PolicyHandler σ) (err : String) :
    newConnectionRequest pH (.error err) =
        ({ status := 400, errorText := some err, body := none }, pH) ∧
      (∀ encodeErr, addPeerRequest pH (.error err) encodeErr =
        ({ status := 400, errorText := some err, body := none }, pH)) ∧
      removePeerRequest pH (.error err) =
        ({ status := 400, errorText := some err, body := none }, pH) ∧
      newRemoteService pH (.error err) =
        ({ status := 400, errorText := some err, body := none }, pH) ∧
      removeRemoteServiceRequest pH (.error err) =
        ({ status := 400, errorText := some err, body := none }, pH) ∧
      exposeRequest pH (.error err) =
        ({ status := 400, errorText := some err, body := none }, pH) :=
  ⟨rfl, fun _ => rfl, rfl, rfl, rfl, rfl⟩

/-! ## Expose requests -/

/-- The agent loop of `exposeRequest` ends on the result of `LookupTarget` if
`AccessControl` is in the list, and on its starting value otherwise. -/
theorem foldl_expose {σ : Type} (pH : PolicyHandler σ) (requestAttr : ExposeRequestAttr)
    (agents : List String) (acc : Action × List String) :
    agents.foldl (fun acc agent =>
        if agent = "AccessControl" then
          pH.accessControl.LookupTarget requestAttr.Service pH.mbgState.mbgPeers
        else acc) acc =
      if "AccessControl" ∈ agents then
        pH.accessControl.LookupTarget requestAttr.Service pH.mbgState.mbgPeers
      else acc := by
  induction agents generalizing acc with
  | nil => simp
  | cons a rest ih =>
    rw [List.foldl_cons, ih]
    by_cases ha : a = "AccessControl"
    · simp [ha]
    · have ha2 : ¬ "AccessControl" = a := fun h => ha h.symm
      simp [ha, ha2]

/-- C14: with `AccessControl` in the subscription list of `ExposeRequest`, a
well-formed expose request for service `s` is answered with the action and
the target peers that `LookupTarget(s, peers)` returns for the current peer
list, and the handler state is unchanged. -/
theorem exposeRequest_is_lookupTarget {σ : Type} (pH : PolicyHandler σ)
    (requestAttr : ExposeRequestAttr)
    (hsub : "AccessControl" ∈ pH.SubscriptionMap ExposeRequest) :
    exposeRequest pH (.ok requestAttr) =
      (HttpReply.okJson
        { Action := (pH.accessControl.LookupTarget requestAttr.Service
            pH.mbgState.mbgPeers).1
          TargetMbgs := (pH.accessControl.LookupTarget requestAttr.Service
            pH.mbgState.mbgPeers).2 }, pH) := by
  simp only [exposeRequest, exposeDecide, foldl_expose, hsub, if_true]

/-- C14, on a sample: with peers `P1`, `P2`, `P3` of which `P1` is denied,
exposing `svc` gives `AllowPartial` with targets `P2` and `P3`. -/
theorem exposeRequest_is_lookupTarget_witness :
    (exposeRequest sampleHandlerPeers (.ok { Service := "svc" })).1.body =
        some { Action := AllowPartial, TargetMbgs := ["P2", "P3"] } ∧
      exposeRequest sampleHandlerPeers (.ok { Service := "svc" }) =
        (HttpReply.okJson
          { Action := (sampleHandlerPeers.accessControl.LookupTarget "svc"
              sampleHandlerPeers.mbgState.mbgPeers).1
            TargetMbgs := (sampleHandlerPeers.accessControl.LookupTarget "svc"
              sampleHandlerPeers.mbgState.mbgPeers).2 }, sampleHandlerPeers) :=
  ⟨by decide,
    exposeRequest_is_lookupTarget sampleHandlerPeers { Service := "svc" } (by decide)⟩

end policyEngine

namespace policyEngine

open eventManager

/-! ## Requests on which no agent acts -/

/-- The agent loop of `newConnectionRequest` returns what it started from if
every listed agent is unrecognized, or is `AccessControl` on a request that is
not incoming, or is `LoadBalancer` on a request that is not outgoing. -/
theorem foldl_connAgent_idle {σ : Type} (pH : PolicyHandler σ) (req : ConnectionRequestAttr)
    (agents : List String)
    (h : ∀ a ∈ agents, (a = "AccessControl" → req.Direction ≠ Incoming) ∧
      (a = "LoadBalancer" → req.Direction ≠ Outgoing))
    (d : ConnDecision σ) : agents.foldl (connAgent pH req) d = d := by
  induction agents generalizing d with
  | nil => rfl
  | cons a rest ih =>
    have ha := h a (List.mem_cons_self a rest)
    have hstep : connAgent pH req d a = d := by
      unfold connAgent
      by_cases h1 : a = "AccessControl"
      · rw [if_pos h1, if_neg (ha.1 h1)]
      · by_cases h2 : a = "LoadBalancer"
        · rw [if_neg h1, if_pos h2, if_neg (ha.2 h2)]
        · rw [if_neg h1, if_neg h2]
    rw [List.foldl_cons, hstep]
    exact ih (fun b hb => h b (List.mem_cons_of_mem a hb)) d

/-- Handler `newConnectionRequest` answers `Allow` with an empty target and
bitrate 0, and changes nothing, when no listed agent acts on the request. -/
theorem newConnectionRequest_idle {σ : Type} (pH : PolicyHandler σ)
    (req : ConnectionRequestAttr)
    (h : ∀ a ∈ pH.SubscriptionMap NewConnectionRequest,
      (a = "AccessControl" → req.Direction ≠ Incoming) ∧
      (a = "LoadBalancer" → req.Direction ≠ Outgoing)) :
    newConnectionRequest pH (.ok req) =
      (HttpReply.okJson { Action := Allow, TargetMbg := "", BitRate := 0 }, pH) := by
  simp only [newConnectionRequest, connDecide, foldl_connAgent_idle pH req _ h,
    PolicyHandler.set_lbState_self]
  rfl

/-- The agent loops of `addPeerRequest` and `newRemoteService` end on `Allow`
when `AccessControl` is not listed. -/
theorem decide_without_accessControl {σ : Type} (pH : PolicyHandler σ) (agents : List String)
    (h : "AccessControl" ∉ agents) :
    (∀ requestAttr, addPeerDecide pH requestAttr agents = Allow) ∧
      ∀ requestAttr, newRemoteServiceDecide pH requestAttr agents = Allow := by
  constructor
  · intro requestAttr
    unfold addPeerDecide
    have hf : ∀ (l : List String) (d : Action), "AccessControl" ∉ l →
        l.foldl (fun action agent =>
          if agent = "AccessControl" then
            (pH.accessControl.RulesLookup Wildcard Wildcard requestAttr.PeerMbg).2.1
          else action) d = d := by
      intro l
      induction l with
      | nil => intro d _; rfl
      | cons a rest ih =>
        intro d hl
        have ha : ¬ a = "AccessControl" := fun e => hl (by rw [e]; exact List.mem_cons_self _ _)
        rw [List.foldl_cons]
        simp only [ha, if_false]
        exact ih d (fun hm => hl (List.mem_cons_of_mem a hm))
    exact hf agents 0 h
  · intro requestAttr
    unfold newRemoteServiceDecide
    have hf : ∀ (l : List String) (d : Action), "AccessControl" ∉ l →
        l.foldl (fun action agent =>
          if agent = "AccessControl" then
            (pH.accessControl.Lookup Wildcard requestAttr.Service requestAttr.Mbg Allow).1
          else action) d = d := by
      intro l
      induction l with
      | nil => intro d _; rfl
      | cons a rest ih =>
        intro d hl
        have ha : ¬ a = "AccessControl" := fun e => hl (by rw [e]; exact List.mem_cons_self _ _)
        rw [List.foldl_cons]
        simp only [ha, if_false]
        exact ih d (fun hm => hl (List.mem_cons_of_mem a hm))
    exact hf agents 0 h

/-- What holds of the zero-value decision: with no recognized agent listed,
`newConnectionRequest` answers `Allow` with empty target and bitrate 0, as it
does for an outgoing request without `LoadBalancer` listed and for a request
that is neither incoming nor outgoing; `newRemoteService` answers `Allow` and
applies `AddToServiceMap`; `addPeerRequest` answers `Allow`, and adds the peer
if the response was encoded without error. -/
theorem zero_value_decision {σ : Type} (pH : PolicyHandler σ) :
    (∀ req, (∀ a ∈ pH.SubscriptionMap NewConnectionRequest,
          a ≠ "AccessControl" ∧ a ≠ "LoadBalancer") →
        newConnectionRequest pH (.ok req) =
          (HttpReply.okJson { Action := Allow, TargetMbg := "", BitRate := 0 }, pH)) ∧
      (∀ req, req.Direction = Outgoing →
        "LoadBalancer" ∉ pH.SubscriptionMap NewConnectionRequest →
        newConnectionRequest pH (.ok req) =
          (HttpReply.okJson { Action := Allow, TargetMbg := "", BitRate := 0 }, pH)) ∧
      (∀ req, req.Direction ≠ Incoming → req.Direction ≠ Outgoing →
        newConnectionRequest pH (.ok req) =
          (HttpReply.okJson { Action := Allow, TargetMbg := "", BitRate := 0 }, pH)) ∧
      (∀ requestAttr, "AccessControl" ∉ pH.SubscriptionMap NewRemoteService →
        newRemoteService pH (.ok requestAttr) =
          (HttpReply.okJson { Action := Allow },
            { pH with loadBalancer := { pH.loadBalancer with
                state := pH.loadBalancer.AddToServiceMap pH.loadBalancer.state
                  requestAttr.Service requestAttr.Mbg } })) ∧
      (∀ requestAttr encodeErr, "AccessControl" ∉ pH.SubscriptionMap AddPeerRequest →
        (addPeerRequest pH (.ok requestAttr) encodeErr).1 = HttpReply.okJson { Action := Allow } ∧
        (encodeErr = false →
          (addPeerRequest pH (.ok requestAttr) encodeErr).2 =
            { pH with mbgState :=
                { mbgPeers := addPeer pH.mbgState.mbgPeers requestAttr.PeerMbg } } ∧
          requestAttr.PeerMbg ∈
            (addPeerRequest pH (.ok requestAttr) encodeErr).2.mbgState.mbgPeers)) := by
  refine ⟨?_, ?_, ?_, ?_, ?_⟩
  · intro req h
    exact newConnectionRequest_idle pH req
      (fun a ha => ⟨fun e => absurd e (h a ha).1, fun e => absurd e (h a ha).2⟩)
  · intro req hdir hlb
    apply newConnectionRequest_idle pH req
    intro a ha
    refine ⟨fun _ => ?_, fun e => ?_⟩
    · rw [hdir]; exact outgoing_ne_incoming
    · rw [e] at ha; exact absurd ha hlb
  · intro req h1 h2
    exact newConnectionRequest_idle pH req (fun a _ => ⟨fun _ => h1, fun _ => h2⟩)
  · intro requestAttr h
    have hd := (decide_without_accessControl pH _ h).2 requestAttr
    have hu := newRemoteService_update pH requestAttr
    rw [hd] at hu
    exact Prod.ext hu.1 (hu.2.2 allow_ne_deny)
  · intro requestAttr encodeErr h
    have hd := (decide_without_accessControl pH _ h).1 requestAttr
    have hu := addPeerRequest_update pH requestAttr encodeErr
    rw [hd] at hu
    exact ⟨hu.1, fun henc => hu.2.2 allow_ne_deny henc⟩

/-- C16, the run on which the code leaves the claim: with an empty
subscription list, and with a list of unrecognized names, `AddPeerRequest` for
`P2` is answered `Allow`, yet when `Encode` on the response writer fails the
handler returns before the update and the peer list stays empty. -/
theorem addPeerRequest_no_agent_encode_error :
    (addPeerRequest (sampleHandlerWith []) (.ok { PeerMbg := "P2" }) true).1.body =
        some { Action := Allow } ∧
      (addPeerRequest (sampleHandlerWith []) (.ok { PeerMbg := "P2" }) true).2.mbgState.mbgPeers =
        [] ∧
      (addPeerRequest (sampleHandlerWith ["Bogus"]) (.ok { PeerMbg := "P2" }) true).1.body =
        some { Action := Allow } ∧
      "P2" ∉ (addPeerRequest (sampleHandlerWith ["Bogus"])
        (.ok { PeerMbg := "P2" }) true).2.mbgState.mbgPeers ∧
      (addPeerRequest (sampleHandlerWith []) (.ok { PeerMbg := "P2" }) false).2.mbgState.mbgPeers =
        ["P2"] :=
  ⟨by decide, by decide, by decide, by decide, by decide⟩

/-! ## The optional peer field -/

/-- C17: two outgoing connection requests that agree on `SrcService` and
`DstService` get the same reply (action, target peer and bitrate) and leave
the same handler state, whatever their `OtherMbg` fields and whatever the
subscription list. -/
theorem newConnectionRequest_outgoing_ignores_otherMbg {σ : Type} (pH : PolicyHandler σ)
    (req1 req2 : ConnectionRequestAttr)
    (hdir1 : req1.Direction = Outgoing) (hdir2 : req2.Direction = Outgoing)
    (hsrc : req1.SrcService = req2.SrcService) (hdst : req1.DstService = req2.DstService) :
    newConnectionRequest pH (.ok req1) = newConnectionRequest pH (.ok req2) := by
  have hagent : connAgent pH req1 = connAgent pH req2 := by
    funext d agent
    simp only [connAgent, hdir1, hdir2, hsrc, hdst, outgoing_ne_incoming, if_false]
  simp only [newConnectionRequest, connDecide, hagent]

/-- C17, on a sample: the outgoing request from `app` to `svc` gets `Allow`
with target `P2` whether `OtherMbg` is empty or `P1`. -/
theorem newConnectionRequest_outgoing_ignores_otherMbg_witness :
    sampleOutgoing.OtherMbg ≠ sampleOutgoingVia.OtherMbg ∧
      (newConnectionRequest sampleHandler (.ok sampleOutgoingVia)).1.body =
        some { Action := Allow, TargetMbg := "P2", BitRate := 0 } ∧
      newConnectionRequest sampleHandler (.ok sampleOutgoing) =
        newConnectionRequest sampleHandler (.ok sampleOutgoingVia) :=
  ⟨by decide, by decide,
    newConnectionRequest_outgoing_ignores_otherMbg sampleHandler sampleOutgoing
      sampleOutgoingVia (by decide) (by decide) (by decide) (by decide)⟩

end policyEngine
